import Mathlib

/-!
# FusionBlitz: the player controller (`src/entities/player.cpp`)

A shallow embedding of `Player`: the action methods (`move`, `jump`, `roll`,
`attack`, `takeDamage`), the per-tick `update`, the animation sequencer and the
collision resolver `moveHelp`.

Conventions of the embedding.

* C++ `int` is `Int` (unbounded; signed overflow is undefined behaviour in the
  source and is not modelled).
* C++ `float` is IEEE single precision.  A `float` value is carried as the
  `Rat` it denotes; `toFloat` rounds a rational to the nearest `float` (ties to
  even), and an operation on `float`s is the exact operation followed by
  `toFloat`.  An `int` compared or combined with a `float` is first converted
  with `toFloat`; `static_cast<int>` is truncation toward zero.  Infinities and
  NaN are not modelled.
* `player.h` is not among the sources.  Its constants are the fields of
  `Config`; the animation ids are fields too.  The constants that enter `float`
  expressions (`SPEED`, `GRAVITY`, `JUMP_HEIGHT`, `ROLL_SPEED_MODIFIER`,
  `PLAYER_RECOIL_SPEED`) are taken to be `int` or `float` constants and are
  given by their `float` values, so the expressions of `update` are evaluated
  in single precision.
* `isColliding`, `clamp`, `Effect`, `AttackMessage` and `Audio` come from the
  engine.  `isColliding` and `clamp` are modelled from the specification,
  `Effect::update` is a field of `Config`, and the message sink and the audio
  sink are logs carried in the state.
* The collision map is a pointer to a vector owned elsewhere: it is an explicit
  argument `map : List Rectangle`.
-/

namespace FusionBlitz

/-! ## Data model -/

/-- The engine's axis-aligned rectangle `Rectangle(x, y, w, h)`. -/
structure Rectangle where
  x : Int
  y : Int
  w : Int
  h : Int
deriving DecidableEq, Repr

/-- The entity's visual position. -/
structure Vec2 where
  x : Int
  y : Int
deriving DecidableEq, Repr

/-- A transient visual effect, `Effect(x, y, frames, w, h, path, renderer)` with
its camera offsets and its removal flag. -/
structure Effect where
  x : Int
  y : Int
  frames : Int
  w : Int
  h : Int
  path : String
  camX : Int
  camY : Int
  REMOVE : Bool
deriving DecidableEq, Repr

/-- Targets of an attack message. -/
inductive Target where
  | PLAYER
  | ENEMY
deriving DecidableEq, Repr

/-- The message handed to the attack messager:
`AttackMessage(target, damage, new Rectangle(..))` and its `recoilRight`. -/
structure AttackMessage where
  target : Target
  damage : Int
  collisionBox : Rectangle
  recoilRight : Bool
deriving DecidableEq, Repr

/-- The constants of `player.h` (not among the sources) and the engine's
`Effect::update`. -/
structure Config where
  JUMP_HEIGHT : Rat
  JUMP_COOLDOWN : Int
  ROLL_TIME : Int
  ATTACK_TIME : Int
  INVINCIBLE_TIME : Int
  SPEED : Rat
  ROLL_SPEED_MODIFIER : Rat
  GRAVITY : Rat
  PLAYER_RECOIL_BAR : Int
  PLAYER_RECOIL_SPEED : Rat
  UP_MARGIN : Nat
  HIT_BOX_MARGIN_X : Int
  ANIMATION_INTERVAL : Int
  IDLE_RIGHT : Nat
  IDLE_LEFT : Nat
  MOVE_RIGHT : Nat
  MOVE_LEFT : Nat
  JUMP_RIGHT : Nat
  JUMP_LEFT : Nat
  ROLL_RIGHT : Nat
  ROLL_LEFT : Nat
  ATTACK_RIGHT : Nat
  ATTACK_LEFT : Nat
  DEATH_RIGHT : Nat
  DEATH_LEFT : Nat
  DEATH_IDLE : Nat
  WALL_JUMP_RIGHT : Nat
  WALL_JUMP_LEFT : Nat
  effectUpdate : Rat → Effect → Effect

/-- The fields of `Player`, with the two sinks it writes to (`attackMessager`,
`Audio::playTrack`) and the atlas frame shown by its texture. -/
structure Player where
  position : Vec2
  collisionBox : Rectangle
  currentAnimation : Nat
  currentFrame : Nat
  frameCounter : Int
  nextAnim : Nat
  moveRight : Bool
  moveLeft : Bool
  yVelocity : Rat
  faceRight : Bool
  onGround : Bool
  jumpTimer : Int
  canJump : Bool
  rolling : Bool
  rollCoolDown : Int
  attacking : Bool
  attackCoolDown : Int
  health : Int
  invincibleTimer : Int
  recoilTimer : Int
  recoilFaceRight : Bool
  DEAD : Bool
  camX : Int
  camY : Int
  effects : List Effect
  messages : List AttackMessage
  sounds : List String
  atlasFrame : Nat
deriving DecidableEq, Repr

/-- The four directions of `moveHelp` (`0 - Up`, `1 - Right`, `2 - Down`,
`3 - Left`); `moveHelp` is private and only called with these literals. -/
inductive Direction where
  | Up
  | Right
  | Down
  | Left
deriving DecidableEq, Repr

/-! ## Engine helpers -/

/-- Modelled from the spec: the engine's `isColliding` on two rectangles is not
among the sources; the specification gives it as the standard axis-aligned
overlap in both axes, taken here with strict inequalities (touching edges do
not collide). -/
def isColliding (a b : Rectangle) : Bool :=
  decide (a.x < b.x + b.w) && decide (b.x < a.x + a.w) &&
    decide (a.y < b.y + b.h) && decide (b.y < a.y + a.h)

/-- Modelled from the spec: the engine's `clamp(v, lo, hi)` is not among the
sources; the specification says the velocity is clamped to `[lo, hi]`. -/
def clamp (v lo hi : Rat) : Rat :=
  if v < lo then lo else if hi < v then hi else v

/-- The C++ conversion `static_cast<int>(q)`: truncation toward zero. -/
def truncInt (q : Rat) : Int :=
  if 0 ≤ q then Rat.floor q else -(Rat.floor (-q))

/-! ## Single precision

`float` is IEEE binary32: 24 bits of significand, least unit `2^-149`, rounding
to nearest with ties to even.  A `float` value is carried as the rational it
denotes; every arithmetic operation on `float` operands is the exact operation
followed by one rounding.  Overflow to infinity and NaN are not modelled. -/

/-- The position of the leading bit of `n`, on a step budget. -/
def leadingBitFuel : Nat → Nat → Nat
  | 0, _ => 0
  | fuel + 1, n => if 2 ≤ n then leadingBitFuel fuel (n / 2) + 1 else 0

/-- The position of the leading bit of `n` (`0` for `n = 0`): the floor of its
binary logarithm. -/
def leadingBit (n : Nat) : Nat := leadingBitFuel n n

/-- Rounding to the nearest integer, ties to the even one. -/
def roundHalfEven (t : Rat) : Int :=
  if t - (Rat.floor t : Rat) < 1 / 2 then Rat.floor t
  else if 1 / 2 < t - (Rat.floor t : Rat) then Rat.floor t + 1
  else if Rat.floor t % 2 = 0 then Rat.floor t else Rat.floor t + 1

/-- Binary32 rounding of a non-negative number given in units of `2^-149`
(the smallest positive `float`): the 24 leading bits are kept, the rest is
rounded to nearest, ties to even. -/
def roundScaled (q : Rat) : Rat :=
  (roundHalfEven (q / ((2 ^ (leadingBit (Rat.floor q).toNat - 23) : Nat) : Rat)) : Rat)
    * ((2 ^ (leadingBit (Rat.floor q).toNat - 23) : Nat) : Rat)

/-- The conversion to `float`: the nearest binary32 value, ties to even
(overflow to infinity is not modelled). -/
def toFloat (q : Rat) : Rat :=
  if 0 ≤ q then roundScaled (q * ((2 ^ 149 : Nat) : Rat)) / ((2 ^ 149 : Nat) : Rat)
  else -(roundScaled (-q * ((2 ^ 149 : Nat) : Rat)) / ((2 ^ 149 : Nat) : Rat))

/-- The `float` product `a * b`. -/
def fmul (a b : Rat) : Rat := toFloat (a * b)

/-- The `float` quotient `a / b`. -/
def fdiv (a b : Rat) : Rat := toFloat (a / b)

/-- The `float` difference `a - b`. -/
def fsub (a b : Rat) : Rat := toFloat (a - b)

/-! ## Animation tables (`setupAnimations`) -/

/-- The table `animations[i] = { start, end }` of `setupAnimations`. -/
def animationsTable : List (Nat × Nat) :=
  [(0, 0), (8, 8), (16, 23), (24, 31), (32, 32), (40, 40), (48, 55), (56, 63),
   (64, 69), (72, 77), (80, 85), (88, 93), (96, 102), (104, 109), (112, 117)]

/-- The table `statePlayOnce[i]` of `setupAnimations`. -/
def statePlayOnceTable : List Bool :=
  [false, false, false, false, false, false, true, true,
   true, true, true, true, false, true, true]

/-- The field `animations[i].start`. -/
def animStart (i : Nat) : Nat := (animationsTable.getD i (0, 0)).1

/-- The field `animations[i].end`. -/
def animEnd (i : Nat) : Nat := (animationsTable.getD i (0, 0)).2

/-- The entry `statePlayOnce[i]`. -/
def statePlayOnce (i : Nat) : Bool := statePlayOnceTable.getD i false

/-! ## Construction -/

/-- The members the constructor leaves unset (`float yVelocity = .0f;` declares
a local, and `recoilTimer`, `recoilFaceRight`, `DEAD`, `camX`, `camY` are not
assigned): their initial values are those of their declarations in `player.h`. -/
structure Unset where
  yVelocity : Rat
  recoilTimer : Int
  recoilFaceRight : Bool
  DEAD : Bool
  camX : Int
  camY : Int

/-- The state built by `Player::Player(renderer, inputMap, _x, _y, messager, health)`. -/
def Player.init (cfg : Config) (u : Unset) (x y health : Int) : Player :=
  { position := ⟨x, y⟩
    collisionBox := ⟨x, y, 44, 64⟩
    currentAnimation := 0
    currentFrame := 0
    frameCounter := 0
    nextAnim := cfg.IDLE_RIGHT
    moveRight := false
    moveLeft := false
    yVelocity := u.yVelocity
    faceRight := true
    onGround := false
    jumpTimer := 0
    canJump := false
    rolling := false
    rollCoolDown := 0
    attacking := false
    attackCoolDown := 0
    health := health
    invincibleTimer := 0
    recoilTimer := u.recoilTimer
    recoilFaceRight := u.recoilFaceRight
    DEAD := u.DEAD
    camX := u.camX
    camY := u.camY
    effects := []
    messages := []
    sounds := []
    atlasFrame := cfg.IDLE_RIGHT }

/-! ## Actions -/

/-- The method `Player::changeAnimation`. -/
def changeAnimation (s : Player) (newAnimation : Nat) : Player :=
  if newAnimation = s.currentAnimation then s
  else { s with currentAnimation := newAnimation, currentFrame := animStart newAnimation }

/-- The method `Player::move(dir)`: `0` is right, anything else is left. -/
def move (s : Player) (dir : Int) : Player :=
  if s.attacking || s.rolling then s
  else if dir = 0 then { s with moveRight := true, faceRight := true }
  else { s with moveLeft := true, faceRight := false }

/-- The method `Player::jump`. -/
def jump (cfg : Config) (s : Player) : Player :=
  if s.canJump && decide (s.jumpTimer = 0) && !s.rolling then
    let s1 :=
      if !s.onGround then
        changeAnimation { s with nextAnim := s.currentAnimation }
          (if s.faceRight then cfg.WALL_JUMP_RIGHT else cfg.WALL_JUMP_LEFT)
      else s
    { s1 with
      yVelocity := cfg.JUMP_HEIGHT
      onGround := false
      canJump := false
      jumpTimer := cfg.JUMP_COOLDOWN
      sounds := s1.sounds ++ ["assets/sfx/jump.wav"] }
  else s

/-- The method `Player::roll`. -/
def roll (cfg : Config) (s : Player) : Player :=
  if s.attacking || s.rolling then s
  else
    let s1 := changeAnimation { s with rollCoolDown := cfg.ROLL_TIME, rolling := true }
      (if s.faceRight then cfg.ROLL_RIGHT else cfg.ROLL_LEFT)
    { s1 with
      nextAnim := if s1.faceRight then cfg.IDLE_RIGHT else cfg.IDLE_LEFT
      invincibleTimer := cfg.INVINCIBLE_TIME
      sounds := s1.sounds ++ ["assets/sfx/roll.wav"] }

/-- The method `Player::attack`, with its return value. -/
def attack (cfg : Config) (s : Player) : Bool × Player :=
  if s.attacking || s.rolling then (false, s)
  else
    let s1 := changeAnimation { s with attackCoolDown := cfg.ATTACK_TIME, attacking := true }
      (if s.faceRight then cfg.ATTACK_RIGHT else cfg.ATTACK_LEFT)
    let effectX : Int := if s1.faceRight then s1.position.x else s1.position.x - 36
    let effectPath : String :=
      if s1.faceRight then "assets/attack_effect.png" else "assets/attack_effect_left.png"
    let effect : Effect :=
      { x := effectX, y := s1.position.y - 36, frames := 6, w := 100, h := 100,
        path := effectPath, camX := s1.camX, camY := s1.camY, REMOVE := false }
    let message : AttackMessage :=
      { target := Target.ENEMY, damage := 1,
        collisionBox := ⟨effectX, s1.position.y - 36, 100, 100⟩,
        recoilRight := s1.faceRight }
    (true,
      { s1 with
        nextAnim := if s1.faceRight then cfg.IDLE_RIGHT else cfg.IDLE_LEFT
        effects := s1.effects ++ [effect]
        messages := s1.messages ++ [message]
        sounds := s1.sounds ++ ["assets/sfx/kick.wav"] })

/-- The method `Player::takeDamage(dmg, right)`. -/
def takeDamage (cfg : Config) (s : Player) (dmg : Int) (right : Bool) : Player :=
  if s.invincibleTimer = 0 then
    let s1 := { s with health := s.health - dmg, recoilTimer := cfg.PLAYER_RECOIL_BAR,
                       recoilFaceRight := right }
    let s2 :=
      if s1.health ≤ 0 then
        let s3 := changeAnimation { s1 with DEAD := true }
          (if s1.faceRight then cfg.DEATH_RIGHT else cfg.DEATH_LEFT)
        { s3 with nextAnim := cfg.DEATH_IDLE }
      else s1
    { s2 with invincibleTimer := cfg.INVINCIBLE_TIME }
  else s

/-! ## The animation sequencer -/

/-- The method `Player::updateAnimation(delta)`. -/
def updateAnimation (cfg : Config) (s : Player) (_delta : Rat) : Player :=
  if s.frameCounter > cfg.ANIMATION_INTERVAL then
    let s1 := { s with frameCounter := 0, currentFrame := s.currentFrame + 1 }
    let s2 :=
      if s1.currentFrame > animEnd s1.currentAnimation then
        let s3 := { s1 with currentFrame := animStart s1.currentAnimation }
        if statePlayOnce s3.currentAnimation then changeAnimation s3 s3.nextAnim else s3
      else s1
    { s2 with atlasFrame := s2.currentFrame }
  else { s with frameCounter := s.frameCounter + 1 }

/-! ## The collision resolver `moveHelp`

The `while` loops are recursions on a step budget that answer `none` when the
budget runs out.  `moveHelpFuel` runs every loop on one given budget;
`moveHelp` gives each loop the budget `resolveMeasure + 1` (and `UP_MARGIN + 1`
to the climbing loop), which `resolveLoop_total` shows to be enough. -/

/-- The climbing loop `while (!isColliding(checkMargin, *obj)) checkMargin.y++;`. -/
def climbLoop (obj : Rectangle) : Nat → Rectangle → Option Rectangle
  | 0, _ => none
  | fuel + 1, checkMargin =>
    if !isColliding checkMargin obj then
      climbLoop obj fuel { checkMargin with y := checkMargin.y + 1 }
    else some checkMargin

/-- The horizontal case of the body of `while (isColliding(newRect, *obj))`:
step up if the box raised by `UP_MARGIN` is clear of `obj`, else give way by
`back` (`-1` when moving right, `+1` when moving left). -/
def stepUpOrBack (cfg : Config) (inner : Nat) (w h : Int) (obj : Rectangle)
    (back : Int) (p : Int × Int) : Option (Int × Int) :=
  let checkMargin : Rectangle := ⟨p.1, p.2 - cfg.UP_MARGIN, w, h⟩
  if !isColliding checkMargin obj then
    (climbLoop obj inner checkMargin).map fun cm => (p.1, cm.y - 1)
  else some (p.1 + back, p.2)

/-- One pass through the body of `while (isColliding(newRect, *obj))`, on the
pair `(newX, newY)`. -/
def resolveBody (cfg : Config) (inner : Nat) (dir : Direction) (w h : Int)
    (obj : Rectangle) (p : Int × Int) : Option (Int × Int) :=
  match dir with
  | Direction.Up => some (p.1, p.2 + 1)
  | Direction.Right => stepUpOrBack cfg inner w h obj (-1) p
  | Direction.Down => some (p.1, p.2 - 1)
  | Direction.Left => stepUpOrBack cfg inner w h obj 1 p

/-- The loop `while (isColliding(newRect, *obj)) { ... }` for one obstacle. -/
def resolveLoop (cfg : Config) (inner : Nat) (dir : Direction) (w h : Int)
    (obj : Rectangle) : Nat → Int × Int → Option (Int × Int)
  | 0, _ => none
  | fuel + 1, p =>
    if isColliding ⟨p.1, p.2, w, h⟩ obj then
      (resolveBody cfg inner dir w h obj p).bind (resolveLoop cfg inner dir w h obj fuel)
    else some p

/-- The displaced corner `(newX, newY)` computed before the loops. -/
def displaced (dir : Direction) (amount : Int) (box : Rectangle) : Int × Int :=
  match dir with
  | Direction.Up => (box.x, box.y - amount)
  | Direction.Right => (box.x + amount, box.y)
  | Direction.Down => (box.x, box.y + amount)
  | Direction.Left => (box.x - amount, box.y)

/-- The loops of `moveHelp` on one step budget `fuel` for each of them: the
final `(newX, newY)`, or `none` when a loop exhausts the budget. -/
def moveHelpFuel (cfg : Config) (fuel : Nat) (map : List Rectangle) (dir : Direction)
    (amount : Int) (box : Rectangle) : Option (Int × Int) :=
  map.foldlM (fun p obj => resolveLoop cfg fuel dir box.w box.h obj fuel p)
    (displaced dir amount box)

/-- A bound on the passes of `while (isColliding(newRect, *obj))` from
`(newX, newY)`: the distance that is left to the far edge of `obj`. -/
def resolveMeasure (dir : Direction) (w h : Int) (obj : Rectangle) (p : Int × Int) : Nat :=
  match dir with
  | Direction.Up => (obj.y + obj.h - p.2).toNat
  | Direction.Right => (p.1 + w - obj.x).toNat
  | Direction.Down => (p.2 + h - obj.y).toNat
  | Direction.Left => (obj.x + obj.w - p.1).toNat

/-- The loop for one obstacle, run on a sufficient budget. -/
def resolve (cfg : Config) (dir : Direction) (w h : Int) (p : Int × Int)
    (obj : Rectangle) : Int × Int :=
  (resolveLoop cfg (cfg.UP_MARGIN + 1) dir w h obj (resolveMeasure dir w h obj p + 1) p).getD p

/-- The final `(newX, newY)` of `moveHelp`: obstacles are resolved one after
another, in map order. -/
def moveHelpPos (cfg : Config) (map : List Rectangle) (dir : Direction) (amount : Int)
    (box : Rectangle) : Int × Int :=
  map.foldl (resolve cfg dir box.w box.h) (displaced dir amount box)

/-- The method `Player::moveHelp(dir, amount)`. -/
def moveHelp (cfg : Config) (map : List Rectangle) (s : Player) (dir : Direction)
    (amount : Int) : Player :=
  let p := moveHelpPos cfg map dir amount s.collisionBox
  { s with
    position := ⟨p.1 - cfg.HIT_BOX_MARGIN_X, p.2⟩
    collisionBox := { s.collisionBox with x := p.1, y := p.2 } }

/-- The method `Player::detectOnGround`. -/
def detectOnGround (map : List Rectangle) (s : Player) : Bool :=
  map.any fun obj => isColliding { s.collisionBox with y := s.collisionBox.y + 1 } obj

/-- The method `Player::updateYVelocityIfHittingCeiling`. -/
def updateYVelocityIfHittingCeiling (map : List Rectangle) (s : Player) : Player :=
  if map.any fun obj => isColliding { s.collisionBox with y := s.collisionBox.y - 1 } obj
  then { s with yVelocity := -1 } else s

/-- The method `Player::updateCanJumpIfHittingWall`. -/
def updateCanJumpIfHittingWall (map : List Rectangle) (s : Player) : Player :=
  if s.canJump then s
  else if map.any fun obj =>
      isColliding { s.collisionBox with x := s.collisionBox.x + 1 } obj ||
      isColliding { s.collisionBox with x := s.collisionBox.x - 1 } obj
  then { s with canJump := true } else s

/-! ## The tick `Player::update(delta)`, phase by phase -/

/-- Lines 124-127: the invincibility timer.  In this and the following phases
`delta` is the value of the `float` parameter of `update`. -/
def tickInvincible (s : Player) (delta : Rat) : Player :=
  if s.invincibleTimer > 0 then
    let t := s.invincibleTimer - truncInt delta
    { s with invincibleTimer := if t < 0 then 0 else t }
  else s

/-- Lines 129-132: the jump timer; the `int` timer is converted to `float` for
the comparison with `delta`. -/
def tickJump (s : Player) (delta : Rat) : Player :=
  if s.jumpTimer > 0 then
    if toFloat (s.jumpTimer : Rat) ≤ delta then { s with jumpTimer := 0 }
    else { s with jumpTimer := s.jumpTimer - truncInt delta }
  else s

/-- Lines 133-139: the attack cooldown, compared with `delta` as a `float`. -/
def tickAttack (s : Player) (delta : Rat) : Player :=
  if s.attackCoolDown > 0 then
    if toFloat (s.attackCoolDown : Rat) ≤ delta then
      { s with attackCoolDown := 0, attacking := false }
    else { s with attackCoolDown := s.attackCoolDown - truncInt delta }
  else s

/-- The distance of one tick of walking, `static_cast<int>(SPEED * delta / 1000)`,
evaluated in single precision. -/
def walkAmount (cfg : Config) (delta : Rat) : Int :=
  truncInt (fdiv (fmul cfg.SPEED delta) 1000)

/-- The distance of one tick of rolling,
`static_cast<int>(SPEED * delta / 1000 * ROLL_SPEED_MODIFIER)`, evaluated in
single precision. -/
def rollAmount (cfg : Config) (delta : Rat) : Int :=
  truncInt (fmul (fdiv (fmul cfg.SPEED delta) 1000) cfg.ROLL_SPEED_MODIFIER)

/-- Lines 141-156: the roll, or the moves asked for by the movement flags; the
roll cooldown is compared with `delta` as a `float`. -/
def tickHorizontal (cfg : Config) (map : List Rectangle) (s : Player) (delta : Rat) : Player :=
  if s.rolling then
    let s1 :=
      if toFloat (s.rollCoolDown : Rat) < delta then { s with rollCoolDown := 0, rolling := false }
      else { s with rollCoolDown := s.rollCoolDown - truncInt delta }
    if s1.faceRight then moveHelp cfg map s1 Direction.Right (rollAmount cfg delta)
    else moveHelp cfg map s1 Direction.Left (rollAmount cfg delta)
  else
    let s1 :=
      if s.moveRight then moveHelp cfg map s Direction.Right (walkAmount cfg delta)
      else s
    if s1.moveLeft then moveHelp cfg map s1 Direction.Left (walkAmount cfg delta)
    else s1

/-- Lines 157-166: ceiling check, gravity (`yVelocity -= GRAVITY * delta / 1000`
in single precision), clamping and the vertical move. -/
def tickVertical (cfg : Config) (map : List Rectangle) (s : Player) (delta : Rat) : Player :=
  let s1 := updateYVelocityIfHittingCeiling map s
  let s2 :=
    if !s1.onGround then
      { s1 with yVelocity := fsub s1.yVelocity (fdiv (fmul cfg.GRAVITY delta) 1000) }
    else { s1 with yVelocity := 0 }
  let s3 := { s2 with yVelocity := clamp s2.yVelocity (-20) 20 }
  if s3.yVelocity < 0 then moveHelp cfg map s3 Direction.Down (truncInt (-s3.yVelocity))
  else moveHelp cfg map s3 Direction.Up (truncInt s3.yVelocity)

/-- Lines 168-173: the recoil; `percentage` is the `float` quotient of the two
`int`s converted to `float`. -/
def tickRecoil (cfg : Config) (map : List Rectangle) (s : Player) (delta : Rat) : Player :=
  if s.recoilTimer > 0 then
    let t := s.recoilTimer - truncInt delta
    let s1 := { s with recoilTimer := if t < 0 then 0 else t }
    let percentage : Rat :=
      fdiv (toFloat (s1.recoilTimer : Rat)) (toFloat (cfg.PLAYER_RECOIL_BAR : Rat))
    moveHelp cfg map s1 (if s1.recoilFaceRight then Direction.Right else Direction.Left)
      (truncInt (fmul (fdiv (fmul cfg.PLAYER_RECOIL_SPEED delta) 1000) percentage))
  else s

/-- Lines 175-204: the grounded flag and the animation chosen from the move state. -/
def tickAnimationState (cfg : Config) (map : List Rectangle) (s : Player) : Player :=
  let s1 := { s with onGround := detectOnGround map s }
  if !s1.rolling && !s1.attacking then
    if s1.onGround then
      let s2 :=
        if s1.moveRight then changeAnimation s1 cfg.MOVE_RIGHT
        else if s1.moveLeft then changeAnimation s1 cfg.MOVE_LEFT
        else if s1.faceRight then changeAnimation s1 cfg.IDLE_RIGHT
        else changeAnimation s1 cfg.IDLE_LEFT
      { s2 with canJump := true }
    else if s1.currentAnimation ≠ cfg.WALL_JUMP_RIGHT ∧ s1.currentAnimation ≠ cfg.WALL_JUMP_LEFT then
      if s1.faceRight then changeAnimation s1 cfg.JUMP_RIGHT
      else changeAnimation s1 cfg.JUMP_LEFT
    else s1
  else s1

/-- Lines 206-208: wall-jump permission, then the movement flags are reset. -/
def tickWallAndFlags (map : List Rectangle) (s : Player) : Player :=
  let s1 := if s.jumpTimer = 0 then updateCanJumpIfHittingWall map s else s
  { s1 with moveRight := false, moveLeft := false }

/-- Lines 211-225: every effect gets the camera offsets and its own update, and
the expired ones are erased (the others keep their order). -/
def tickEffects (cfg : Config) (s : Player) (delta : Rat) : Player :=
  { s with
    effects :=
      (s.effects.map fun e => cfg.effectUpdate delta { e with camX := s.camX, camY := s.camY }).filter
        fun e => !e.REMOVE }

/-- The method `Player::update(float delta)`.  The argument of a call is
converted to the `float` parameter: `d` is the value the body works with. -/
def update (cfg : Config) (map : List Rectangle) (s : Player) (delta : Rat) : Player :=
  let d := toFloat delta
  let s1 := tickInvincible s d
  let s2 := tickJump s1 d
  let s3 := tickAttack s2 d
  let s4 := tickHorizontal cfg map s3 d
  let s5 := tickVertical cfg map s4 d
  let s6 := tickRecoil cfg map s5 d
  let s7 := tickAnimationState cfg map s6
  let s8 := tickWallAndFlags map s7
  let s9 := tickEffects cfg s8 d
  updateAnimation cfg s9 d

/-! ## Sequences of calls -/

/-- A call of one of the public methods of `Player`. -/
inductive Call where
  | move (dir : Int)
  | jump
  | roll
  | attack
  | takeDamage (dmg : Int) (right : Bool)
  | update (delta : Rat)

/-- The state after one call. -/
def step (cfg : Config) (map : List Rectangle) (s : Player) : Call → Player
  | Call.move dir => move s dir
  | Call.jump => jump cfg s
  | Call.roll => roll cfg s
  | Call.attack => (attack cfg s).2
  | Call.takeDamage dmg right => takeDamage cfg s dmg right
  | Call.update delta => update cfg map s delta

/-- The state after a sequence of calls, first call first. -/
def run (cfg : Config) (map : List Rectangle) (s : Player) : List Call → Player
  | [] => s
  | c :: cs => run cfg map (step cfg map s c) cs

/-- The damage of a `takeDamage` call is not negative. -/
def Call.damageNonneg : Call → Prop
  | Call.takeDamage dmg _ => 0 ≤ dmg
  | _ => True

/-- The spec's `wallAdjacent(box, map)`: the test made by
`updateCanJumpIfHittingWall`, one unit to either side of the collision box. -/
def touchesWall (map : List Rectangle) (s : Player) : Bool :=
  map.any fun obj =>
    isColliding { s.collisionBox with x := s.collisionBox.x + 1 } obj ||
    isColliding { s.collisionBox with x := s.collisionBox.x - 1 } obj

/-- No obstacle of the map overlaps the rectangle. -/
def clearOf (map : List Rectangle) (box : Rectangle) : Prop :=
  ∀ obj ∈ map, isColliding box obj = false

instance (map : List Rectangle) (box : Rectangle) : Decidable (clearOf map box) := by
  unfold clearOf; infer_instance

/-! ## The flags, the timers and the health, taken apart from the rest -/

/-- The part of the state that the cooldown logic reads and writes. -/
structure Core where
  attacking : Bool
  rolling : Bool
  invincibleTimer : Int
  jumpTimer : Int
  attackCoolDown : Int
  rollCoolDown : Int
  recoilTimer : Int
  health : Int
  DEAD : Bool
deriving DecidableEq, Repr

/-- The projection of a player on its `Core`. -/
def Player.core (s : Player) : Core :=
  { attacking := s.attacking, rolling := s.rolling, invincibleTimer := s.invincibleTimer,
    jumpTimer := s.jumpTimer, attackCoolDown := s.attackCoolDown,
    rollCoolDown := s.rollCoolDown, recoilTimer := s.recoilTimer, health := s.health,
    DEAD := s.DEAD }

/-- What the body of `update` does to the `Core` (lines 124-148 and 168-170),
`delta` being the value of its `float` parameter. -/
def Core.tick (c : Core) (delta : Rat) : Core :=
  let atk : Int × Bool :=
    if c.attackCoolDown > 0 then
      if toFloat (c.attackCoolDown : Rat) ≤ delta then (0, false)
      else (c.attackCoolDown - truncInt delta, c.attacking)
    else (c.attackCoolDown, c.attacking)
  let rl : Int × Bool :=
    if c.rolling then
      if toFloat (c.rollCoolDown : Rat) < delta then (0, false)
      else (c.rollCoolDown - truncInt delta, c.rolling)
    else (c.rollCoolDown, c.rolling)
  { attacking := atk.2
    rolling := rl.2
    invincibleTimer :=
      if c.invincibleTimer > 0 then
        (if c.invincibleTimer - truncInt delta < 0 then 0 else c.invincibleTimer - truncInt delta)
      else c.invincibleTimer
    jumpTimer :=
      if c.jumpTimer > 0 then
        (if toFloat (c.jumpTimer : Rat) ≤ delta then 0 else c.jumpTimer - truncInt delta)
      else c.jumpTimer
    attackCoolDown := atk.1
    rollCoolDown := rl.1
    recoilTimer :=
      if c.recoilTimer > 0 then
        (if c.recoilTimer - truncInt delta < 0 then 0 else c.recoilTimer - truncInt delta)
      else c.recoilTimer
    health := c.health
    DEAD := c.DEAD }

/-! ## The movement and the animation, taken apart from the rest -/

/-- The part of the state that the movement logic reads and writes. -/
structure Motion where
  position : Vec2
  collisionBox : Rectangle
  moveRight : Bool
  moveLeft : Bool
  faceRight : Bool
  onGround : Bool
  rolling : Bool
  attacking : Bool
  recoilTimer : Int
  recoilFaceRight : Bool
deriving DecidableEq, Repr

/-- The projection of a player on its `Motion`. -/
def Player.motion (s : Player) : Motion :=
  { position := s.position, collisionBox := s.collisionBox, moveRight := s.moveRight,
    moveLeft := s.moveLeft, faceRight := s.faceRight, onGround := s.onGround,
    rolling := s.rolling, attacking := s.attacking, recoilTimer := s.recoilTimer,
    recoilFaceRight := s.recoilFaceRight }

/-- The motion of a grounded player that neither rolls nor attacks nor recoils
and has no move-left intent. -/
def walking (box : Rectangle) (mr fr rf : Bool) (p : Vec2) : Motion :=
  { position := p, collisionBox := box, moveRight := mr, moveLeft := false, faceRight := fr,
    onGround := true, rolling := false, attacking := false, recoilTimer := 0,
    recoilFaceRight := rf }

/-- The animation `update` selects for a grounded player without a move-left
intent (lines 178-189). -/
def groundAnimation (cfg : Config) (mr fr : Bool) : Nat :=
  if mr then cfg.MOVE_RIGHT else if fr then cfg.IDLE_RIGHT else cfg.IDLE_LEFT

/-- The fifteen animation ids of a configuration. -/
def Config.animationIds (cfg : Config) : List Nat :=
  [cfg.IDLE_RIGHT, cfg.IDLE_LEFT, cfg.MOVE_RIGHT, cfg.MOVE_LEFT, cfg.JUMP_RIGHT, cfg.JUMP_LEFT,
   cfg.ROLL_RIGHT, cfg.ROLL_LEFT, cfg.ATTACK_RIGHT, cfg.ATTACK_LEFT, cfg.DEATH_RIGHT,
   cfg.DEATH_LEFT, cfg.DEATH_IDLE, cfg.WALL_JUMP_RIGHT, cfg.WALL_JUMP_LEFT]

/-- The animation and its fallback are entries of the table and the frame is in
the range of the animation. -/
def frameInRange (s : Player) : Prop :=
  s.currentAnimation < animationsTable.length ∧ s.nextAnim < animationsTable.length ∧
    animStart s.currentAnimation ≤ s.currentFrame ∧ s.currentFrame ≤ animEnd s.currentAnimation

/-- The animation fields of a player. -/
def Player.anim (s : Player) : Nat × Nat × Nat :=
  (s.currentAnimation, s.currentFrame, s.nextAnim)

/-- The sequencer run in isolation: `updateAnimation` called once for each
elapsed time of the list, nothing else touching the state. -/
def runAnimation (cfg : Config) : Player → List Rat → Player
  | s, [] => s
  | s, delta :: rest => runAnimation cfg (updateAnimation cfg s delta) rest

/-- The number of frame advances among the calls of `runAnimation`: the calls
made with `frameCounter > ANIMATION_INTERVAL`. -/
def frameAdvances (cfg : Config) : Player → List Rat → Nat
  | _, [] => 0
  | s, delta :: rest =>
    (if s.frameCounter > cfg.ANIMATION_INTERVAL then 1 else 0)
      + frameAdvances cfg (updateAnimation cfg s delta) rest

/-! ## A sample configuration, for concrete evaluations -/

/-- Sample values for the constants of `player.h`; the engine's effect update
is taken as the identity. -/
def sampleConfig : Config :=
  { JUMP_HEIGHT := 12, JUMP_COOLDOWN := 300, ROLL_TIME := 400, ATTACK_TIME := 300,
    INVINCIBLE_TIME := 500, SPEED := 300, ROLL_SPEED_MODIFIER := 2, GRAVITY := 40,
    PLAYER_RECOIL_BAR := 200, PLAYER_RECOIL_SPEED := 400, UP_MARGIN := 10,
    HIT_BOX_MARGIN_X := 10, ANIMATION_INTERVAL := 3,
    IDLE_RIGHT := 0, IDLE_LEFT := 1, MOVE_RIGHT := 2, MOVE_LEFT := 3, JUMP_RIGHT := 4,
    JUMP_LEFT := 5, ROLL_RIGHT := 6, ROLL_LEFT := 7, ATTACK_RIGHT := 8, ATTACK_LEFT := 9,
    DEATH_RIGHT := 10, DEATH_LEFT := 11, DEATH_IDLE := 12, WALL_JUMP_RIGHT := 13,
    WALL_JUMP_LEFT := 14, effectUpdate := fun _ e => e }

/-- Sample values for the members the constructor leaves unset. -/
def sampleUnset : Unset :=
  { yVelocity := 0, recoilTimer := 0, recoilFaceRight := false, DEAD := false,
    camX := 0, camY := 0 }

/-- A freshly constructed player at the origin with three health points. -/
def samplePlayer : Player := Player.init sampleConfig sampleUnset 0 0 3

/-- A corridor exactly as high as the player: a ceiling, a floor, and a bump one
unit high on the floor, in this map order. -/
def corridorMap : List Rectangle :=
  [⟨-100, -10, 1000, 10⟩, ⟨-100, 64, 1000, 10⟩, ⟨50, 63, 10, 1⟩]

/-- The player standing in the corridor after a first tick, asked to move right. -/
def corridorPlayer : Player :=
  run sampleConfig corridorMap samplePlayer [Call.update 100, Call.move 0]

/-- A platform fifty units wide under the player's feet and nothing else. -/
def ledgeMap : List Rectangle := [⟨0, 64, 50, 10⟩]

/-- The player after landing on the platform and walking right for two ticks:
it has just left the platform. -/
def ledgePlayer : Player :=
  run sampleConfig ledgeMap samplePlayer
    [Call.update 100, Call.move 0, Call.update 100, Call.move 0, Call.update 100]

/-- A player constructed with one health point and killed by one point of damage. -/
def deadPlayer : Player :=
  takeDamage sampleConfig (Player.init sampleConfig sampleUnset 0 0 1) 1 true

/-- A player in the middle of an attack, hit a moment ago and with the jump
cooldown running: the five timers are positive. -/
def busyPlayer : Player :=
  { samplePlayer with
    attacking := true, attackCoolDown := 300, jumpTimer := 300, invincibleTimer := 500,
    recoilTimer := 200, rollCoolDown := 16 }

/-- A wide floor under the player's feet and nothing else. -/
def floorMap : List Rectangle := [⟨-100, 64, 1000, 10⟩]

/-- The player standing on the floor after a first tick. -/
def groundedPlayer : Player := run sampleConfig floorMap samplePlayer [Call.update 100]

/-- A player in the middle of a roll whose cooldown has sixteen units left. -/
def rollingPlayer : Player := { samplePlayer with rolling := true, rollCoolDown := 16 }

/-! ## Lemmas on single precision -/

theorem leadingBitFuel_eq : ∀ (fuel n : Nat), n ≤ fuel → leadingBitFuel fuel n = n.log2 := by
  intro fuel
  induction fuel with
  | zero =>
    intro n hn
    have : n = 0 := by omega
    subst this
    rw [Nat.log2]
    simp [leadingBitFuel]
  | succ fuel ih =>
    intro n hn
    rw [leadingBitFuel, Nat.log2]
    by_cases h : 2 ≤ n
    · rw [if_pos h, if_pos h, ih (n / 2) (by omega)]
    · rw [if_neg h, if_neg h]

theorem leadingBit_eq (n : Nat) : leadingBit n = n.log2 := leadingBitFuel_eq n n le_rfl

theorem floor_le_self (t : Rat) : ((Rat.floor t : Int) : Rat) ≤ t := Rat.le_floor.mp le_rfl

theorem lt_floor_add_one (t : Rat) : t < ((Rat.floor t + 1 : Int) : Rat) := by
  by_contra h
  have := Rat.le_floor.mpr (not_lt.mp h)
  omega

theorem roundHalfEven_le {t : Rat} {m : Int} (h : t ≤ (m : Rat)) : roundHalfEven t ≤ m := by
  have hf : Rat.floor t ≤ m := by
    have := le_trans (floor_le_self t) h
    exact_mod_cast this
  by_cases hlt : Rat.floor t < m
  · unfold roundHalfEven
    split_ifs <;> omega
  · have he : Rat.floor t = m := by omega
    unfold roundHalfEven
    rw [if_pos, he]
    rw [he]
    linarith

theorem floor_le_roundHalfEven (t : Rat) : Rat.floor t ≤ roundHalfEven t := by
  unfold roundHalfEven
  split_ifs <;> omega

theorem roundHalfEven_nonneg {t : Rat} (h : 0 ≤ t) : 0 ≤ roundHalfEven t :=
  le_trans (Rat.le_floor.mpr (by simpa using h)) (floor_le_roundHalfEven t)

theorem roundScaled_nonneg {q : Rat} (h : 0 ≤ q) : 0 ≤ roundScaled q := by
  unfold roundScaled
  have h2 : (0 : Rat) < ((2 ^ (leadingBit (Rat.floor q).toNat - 23) : Nat) : Rat) := by positivity
  have h1 := roundHalfEven_nonneg (div_nonneg h (le_of_lt h2))
  have h3 : (0 : Rat) ≤ (roundHalfEven (q / ((2 ^ (leadingBit (Rat.floor q).toNat - 23) : Nat) : Rat)) : Rat) := by
    exact_mod_cast h1
  exact mul_nonneg h3 (le_of_lt h2)

theorem succ_le_unit_mul (n : Nat) : n + 1 ≤ 2 ^ (leadingBit n - 23 + 24) := by
  have h2 : n < 2 ^ (n.log2 + 1) := Nat.lt_log2_self
  have h3 : 2 ^ (n.log2 + 1) ≤ 2 ^ (leadingBit n - 23 + 24) :=
    Nat.pow_le_pow_right (by omega) (by rw [leadingBit_eq]; omega)
  exact le_trans h2 h3

theorem unit_mul_le_nat (n : Nat) (hj : 1 ≤ leadingBit n - 23) :
    2 ^ (leadingBit n - 23 + 23) ≤ n := by
  rw [leadingBit_eq] at hj ⊢
  have hne : n ≠ 0 := by
    intro h0
    subst h0
    rw [Nat.log2] at hj
    simp at hj
  have h2 : n.log2 - 23 + 23 = n.log2 := by omega
  rw [h2]
  exact Nat.log2_self_le hne

/-- A non-negative number is below `2^24` times the unit it is rounded on. -/
theorem lt_unit_mul (q : Rat) (h : 0 ≤ q) :
    q < ((2 ^ (leadingBit (Rat.floor q).toNat - 23 + 24) : Nat) : Rat) := by
  have h0 : (0 : Int) ≤ Rat.floor q := Rat.le_floor.mpr (by simpa using h)
  have h1 := lt_floor_add_one q
  have h4 := succ_le_unit_mul (Rat.floor q).toNat
  generalize leadingBit (Rat.floor q).toNat - 23 + 24 = k at h4 ⊢
  generalize hp : 2 ^ k = p at h4
  have h5 : Rat.floor q + 1 ≤ (p : Int) := by omega
  have h6 : ((Rat.floor q + 1 : Int) : Rat) ≤ ((p : Int) : Rat) := by exact_mod_cast h5
  have h7 : ((p : Int) : Rat) = ((p : Nat) : Rat) := by norm_cast
  rw [h7] at h6
  exact lt_of_lt_of_le h1 h6

/-- Above the smallest units, a number is at least `2^23` times the unit it is
rounded on. -/
theorem unit_mul_le (q : Rat) (h : 0 ≤ q) (hj : 1 ≤ leadingBit (Rat.floor q).toNat - 23) :
    ((2 ^ (leadingBit (Rat.floor q).toNat - 23 + 23) : Nat) : Rat) ≤ q := by
  have h0 : (0 : Int) ≤ Rat.floor q := Rat.le_floor.mpr (by simpa using h)
  have h1 := unit_mul_le_nat (Rat.floor q).toNat hj
  generalize leadingBit (Rat.floor q).toNat - 23 + 23 = k at h1 ⊢
  generalize hp : 2 ^ k = p at h1
  have h5 : (p : Int) ≤ Rat.floor q := by omega
  have h6 : ((p : Int) : Rat) ≤ ((Rat.floor q : Int) : Rat) := by exact_mod_cast h5
  have h7 : ((p : Int) : Rat) = ((p : Nat) : Rat) := by norm_cast
  rw [h7] at h6
  exact le_trans h6 (floor_le_self q)

/-- The rounded value has a significand of at most 24 bits. -/
theorem roundScaled_repr (q : Rat) (h : 0 ≤ q) :
    ∃ M k : Nat, M < 2 ^ 24 ∧ roundScaled q = (M : Rat) * ((2 ^ k : Nat) : Rat) := by
  have hlt := lt_unit_mul q h
  unfold roundScaled
  generalize leadingBit (Rat.floor q).toNat - 23 = j at hlt ⊢
  have hpos : (0 : Rat) < ((2 ^ j : Nat) : Rat) := by positivity
  have hdiv : q / ((2 ^ j : Nat) : Rat) ≤ ((2 ^ 24 : Int) : Rat) := by
    rw [div_le_iff₀ hpos]
    have e : ((2 ^ (j + 24) : Nat) : Rat) = ((2 ^ 24 : Int) : Rat) * ((2 ^ j : Nat) : Rat) := by
      push_cast; ring
    rw [← e]; exact le_of_lt hlt
  have hle := roundHalfEven_le hdiv
  have hnn : 0 ≤ roundHalfEven (q / ((2 ^ j : Nat) : Rat)) :=
    roundHalfEven_nonneg (div_nonneg h (le_of_lt hpos))
  generalize roundHalfEven (q / ((2 ^ j : Nat) : Rat)) = r at hle hnn ⊢
  by_cases hr : r < 2 ^ 24
  · refine ⟨r.toNat, j, by omega, ?_⟩
    have e : ((r.toNat : Nat) : Rat) = (r : Rat) := by
      have e1 : ((r.toNat : Nat) : Int) = r := Int.toNat_of_nonneg hnn
      exact_mod_cast congrArg (fun z : Int => (z : Rat)) e1
    rw [e]
  · have e : r = 2 ^ 24 := by omega
    subst e
    refine ⟨2 ^ 23, j + 1, by norm_num, ?_⟩
    push_cast; ring

/-- Rounding does not cross a value that has a significand of at most 24 bits. -/
theorem roundScaled_le (q : Rat) (h : 0 ≤ q) (M k : Nat) (hM : M < 2 ^ 24)
    (hq : q ≤ (M : Rat) * ((2 ^ k : Nat) : Rat)) :
    roundScaled q ≤ (M : Rat) * ((2 ^ k : Nat) : Rat) := by
  by_cases hjk : leadingBit (Rat.floor q).toNat - 23 ≤ k
  · unfold roundScaled
    generalize leadingBit (Rat.floor q).toNat - 23 = j at hjk ⊢
    obtain ⟨d, rfl⟩ := Nat.exists_eq_add_of_le hjk
    have hpos : (0 : Rat) < ((2 ^ j : Nat) : Rat) := by positivity
    have e : (M : Rat) * ((2 ^ (j + d) : Nat) : Rat)
        = (((M * 2 ^ d : Nat) : Int) : Rat) * ((2 ^ j : Nat) : Rat) := by
      push_cast; ring
    rw [e] at hq ⊢
    have h1 : q / ((2 ^ j : Nat) : Rat) ≤ (((M * 2 ^ d : Nat) : Int) : Rat) := by
      rw [div_le_iff₀ hpos]; exact hq
    have h2 := roundHalfEven_le h1
    exact mul_le_mul_of_nonneg_right (by exact_mod_cast h2) (le_of_lt hpos)
  · exfalso
    have hj : 1 ≤ leadingBit (Rat.floor q).toNat - 23 := by omega
    have h1 := unit_mul_le q h hj
    generalize leadingBit (Rat.floor q).toNat - 23 = j at hjk h1
    have h2 : ((2 ^ (j + 23) : Nat) : Rat) ≤ ((M * 2 ^ k : Nat) : Rat) := by
      have e : ((M * 2 ^ k : Nat) : Rat) = (M : Rat) * ((2 ^ k : Nat) : Rat) := by push_cast; ring
      rw [e]; exact le_trans h1 hq
    have h3 : 2 ^ (j + 23) ≤ M * 2 ^ k := by exact_mod_cast h2
    have h4 : M * 2 ^ k < 2 ^ 24 * 2 ^ k := Nat.mul_lt_mul_of_pos_right hM (by positivity)
    have h5 : 2 ^ 24 * 2 ^ k = 2 ^ (k + 24) := by ring
    have h6 : 2 ^ (k + 24) ≤ 2 ^ (j + 23) := Nat.pow_le_pow_right (by omega) (by omega)
    rw [h5] at h4
    exact absurd (lt_of_lt_of_le (lt_of_le_of_lt h3 h4) h6) (lt_irrefl _)

theorem toFloat_nonpos {q : Rat} (h : q < 0) : toFloat q ≤ 0 := by
  unfold toFloat
  rw [if_neg (not_le.mpr h)]
  have h1 : (0 : Rat) ≤ -q * ((2 ^ 149 : Nat) : Rat) :=
    mul_nonneg (by linarith) (by positivity)
  have h2 := div_nonneg (roundScaled_nonneg h1) (show (0 : Rat) ≤ ((2 ^ 149 : Nat) : Rat) by positivity)
  linarith

theorem toFloat_zero : toFloat 0 = 0 := by decide!

/-- The conversion to `float` does not cross a `float`: a non-negative number
that is at most a `float` value converts to at most that value. -/
theorem toFloat_le_of_le {x y : Rat} (hx : 0 ≤ x) (h : x ≤ toFloat y) :
    toFloat x ≤ toFloat y := by
  by_cases hy : 0 ≤ y
  · have hP : (0 : Rat) < ((2 ^ 149 : Nat) : Rat) := by positivity
    obtain ⟨M, k, hM, hr⟩ := roundScaled_repr (y * ((2 ^ 149 : Nat) : Rat)) (mul_nonneg hy (le_of_lt hP))
    have ey : toFloat y = (M : Rat) * ((2 ^ k : Nat) : Rat) / ((2 ^ 149 : Nat) : Rat) := by
      unfold toFloat
      rw [if_pos hy, hr]
    rw [ey] at h ⊢
    have h1 : x * ((2 ^ 149 : Nat) : Rat) ≤ (M : Rat) * ((2 ^ k : Nat) : Rat) := by
      rwa [le_div_iff₀ hP] at h
    have h2 := roundScaled_le _ (mul_nonneg hx (le_of_lt hP)) M k hM h1
    unfold toFloat
    rw [if_pos hx]
    exact div_le_div_of_nonneg_right h2 (le_of_lt hP)
  · have h1 := toFloat_nonpos (not_le.mp hy)
    have h2 : x = 0 := le_antisymm (le_trans h h1) hx
    subst h2
    rw [toFloat_zero]
    exact h

theorem floor_intCast (m : Int) : Rat.floor (m : Rat) = m := by
  apply le_antisymm
  · have h := floor_le_self (m : Rat)
    exact_mod_cast h
  · exact Rat.le_floor.mpr le_rfl

theorem roundHalfEven_intCast (m : Int) : roundHalfEven (m : Rat) = m := by
  unfold roundHalfEven
  rw [floor_intCast]
  simp

/-- A value with a significand of at most 24 bits is not changed by the rounding. -/
theorem roundScaled_exact (M k : Nat) (hM : M < 2 ^ 24) :
    roundScaled ((M : Rat) * ((2 ^ k : Nat) : Rat)) = (M : Rat) * ((2 ^ k : Nat) : Rat) := by
  have hfl : (Rat.floor ((M : Rat) * ((2 ^ k : Nat) : Rat))).toNat = M * 2 ^ k := by
    have e : (M : Rat) * ((2 ^ k : Nat) : Rat) = (((M * 2 ^ k : Nat) : Int) : Rat) := by
      push_cast; ring
    rw [e, floor_intCast, Int.toNat_natCast]
  have hjk : leadingBit (M * 2 ^ k) - 23 ≤ k := by
    rw [leadingBit_eq]
    by_cases h0 : M * 2 ^ k = 0
    · rw [h0, Nat.log2]; simp
    · have h1 : M * 2 ^ k < 2 ^ (k + 24) := by
        have h2 : M * 2 ^ k < 2 ^ 24 * 2 ^ k := Nat.mul_lt_mul_of_pos_right hM (by positivity)
        have h3 : 2 ^ 24 * 2 ^ k = 2 ^ (k + 24) := by ring
        rwa [h3] at h2
      have h4 := (Nat.log2_lt h0).mpr h1
      omega
  unfold roundScaled
  rw [hfl]
  generalize leadingBit (M * 2 ^ k) - 23 = j at hjk ⊢
  obtain ⟨d, rfl⟩ := Nat.exists_eq_add_of_le hjk
  have hpos : (0 : Rat) < ((2 ^ j : Nat) : Rat) := by positivity
  have e : (M : Rat) * ((2 ^ (j + d) : Nat) : Rat) / ((2 ^ j : Nat) : Rat)
      = (((M * 2 ^ d : Nat) : Int) : Rat) := by
    rw [div_eq_iff (ne_of_gt hpos)]
    push_cast; ring
  rw [e, roundHalfEven_intCast]
  push_cast; ring

/-- The conversion to `float` leaves a `float` value as it is. -/
theorem toFloat_toFloat (q : Rat) : toFloat (toFloat q) = toFloat q := by
  have hP : (0 : Rat) < ((2 ^ 149 : Nat) : Rat) := by positivity
  have key : ∀ r : Rat, 0 ≤ r →
      toFloat (roundScaled (r * ((2 ^ 149 : Nat) : Rat)) / ((2 ^ 149 : Nat) : Rat))
        = roundScaled (r * ((2 ^ 149 : Nat) : Rat)) / ((2 ^ 149 : Nat) : Rat) := by
    intro r hr
    have h1 : (0 : Rat) ≤ r * ((2 ^ 149 : Nat) : Rat) := mul_nonneg hr (le_of_lt hP)
    obtain ⟨M, k, hM, e⟩ := roundScaled_repr _ h1
    rw [e]
    unfold toFloat
    rw [if_pos (div_nonneg (mul_nonneg (Nat.cast_nonneg M) (by positivity)) (le_of_lt hP))]
    rw [div_mul_cancel₀ _ (ne_of_gt hP), roundScaled_exact M k hM]
  by_cases hq : 0 ≤ q
  · have e : toFloat q = roundScaled (q * ((2 ^ 149 : Nat) : Rat)) / ((2 ^ 149 : Nat) : Rat) := by
      unfold toFloat; rw [if_pos hq]
    rw [e]
    exact key q hq
  · have hq1 : 0 ≤ -q := by linarith
    have e : toFloat q = -(roundScaled (-q * ((2 ^ 149 : Nat) : Rat)) / ((2 ^ 149 : Nat) : Rat)) := by
      unfold toFloat; rw [if_neg hq]
    rw [e]
    have hk := key (-q) hq1
    have hv1 : 0 ≤ roundScaled (-q * ((2 ^ 149 : Nat) : Rat)) / ((2 ^ 149 : Nat) : Rat) :=
      div_nonneg (roundScaled_nonneg (mul_nonneg hq1 (le_of_lt hP))) (le_of_lt hP)
    generalize roundScaled (-q * ((2 ^ 149 : Nat) : Rat)) / ((2 ^ 149 : Nat) : Rat) = v at hk hv1 ⊢
    by_cases hv : 0 ≤ -v
    · have hv0 : v = 0 := by linarith
      subst hv0
      simp [toFloat_zero]
    · have e2 : toFloat (-v) = -toFloat v := by
        conv_lhs => unfold toFloat
        rw [if_neg hv, neg_neg]
        conv_rhs => unfold toFloat
        rw [if_pos hv1]
      rw [e2, hk]

/-- An `int` of magnitude at most `2^24` converts to `float` exactly. -/
theorem toFloat_intCast {n : Int} (h0 : 0 ≤ n) (h1 : n ≤ 16777216) :
    toFloat (n : Rat) = (n : Rat) := by
  have hP : (0 : Rat) < ((2 ^ 149 : Nat) : Rat) := by positivity
  have hn : (0 : Rat) ≤ (n : Rat) := by exact_mod_cast h0
  unfold toFloat
  rw [if_pos hn, div_eq_iff (ne_of_gt hP)]
  by_cases h2 : n = 16777216
  · subst h2
    have e : ((16777216 : Int) : Rat) * ((2 ^ 149 : Nat) : Rat)
        = ((8388608 : Nat) : Rat) * ((2 ^ 150 : Nat) : Rat) := by
      push_cast; norm_num
    rw [e]
    exact roundScaled_exact 8388608 150 (by norm_num)
  · have e : (n : Rat) = ((n.toNat : Nat) : Rat) := by
      have e1 : ((n.toNat : Nat) : Int) = n := Int.toNat_of_nonneg h0
      exact_mod_cast congrArg (fun z : Int => (z : Rat)) e1.symm
    rw [e]
    exact roundScaled_exact n.toNat 149 (by omega)

/-! ## Lemmas on truncation -/

theorem truncInt_le {q : Rat} (h : 0 ≤ q) : ((truncInt q : Int) : Rat) ≤ q := by
  unfold truncInt
  rw [if_pos h]
  exact Rat.le_floor.mp le_rfl

theorem core_changeAnimation (s : Player) (a : Nat) : (changeAnimation s a).core = s.core := by
  unfold changeAnimation
  split <;> rfl

theorem core_moveHelp (cfg : Config) (map : List Rectangle) (s : Player) (dir : Direction)
    (amount : Int) : (moveHelp cfg map s dir amount).core = s.core := rfl

theorem core_tickHorizontal (cfg : Config) (map : List Rectangle) (s : Player) (delta : Rat) :
    (tickHorizontal cfg map s delta).core =
      { s.core with
        rolling := (s.core.tick delta).rolling
        rollCoolDown := (s.core.tick delta).rollCoolDown } := by
  unfold tickHorizontal
  by_cases hr : s.rolling = true
  · by_cases hd : toFloat (s.rollCoolDown : Rat) < delta
    · simp only [hr, hd, if_true]
      split <;> rw [core_moveHelp] <;> simp [Player.core, Core.tick, hr, hd]
    · simp only [hr, hd, if_true, if_false]
      split <;> rw [core_moveHelp] <;> simp [Player.core, Core.tick, hr, hd]
  · have hr' : s.rolling = false := by simpa using hr
    simp only [hr', Bool.false_eq_true, if_false]
    split <;> split <;> simp [Player.core, Core.tick, hr', moveHelp]

theorem core_tickVertical (cfg : Config) (map : List Rectangle) (s : Player) (delta : Rat) :
    (tickVertical cfg map s delta).core = s.core := by
  unfold tickVertical updateYVelocityIfHittingCeiling
  simp only []
  repeat' split
  all_goals rfl

theorem core_tickRecoil (cfg : Config) (map : List Rectangle) (s : Player) (delta : Rat) :
    (tickRecoil cfg map s delta).core =
      { s.core with recoilTimer := (s.core.tick delta).recoilTimer } := by
  unfold tickRecoil
  by_cases h : s.recoilTimer > 0
  · simp only [h, if_true]
    rw [core_moveHelp]
    simp [Player.core, Core.tick, h]
  · simp [h, Player.core, Core.tick]

theorem core_tickAnimationState (cfg : Config) (map : List Rectangle) (s : Player) :
    (tickAnimationState cfg map s).core = s.core := by
  unfold tickAnimationState
  simp only []
  repeat' split
  all_goals first
    | rfl
    | (rw [core_changeAnimation]; rfl)
    | (show (changeAnimation _ _).core = _; rw [core_changeAnimation]; rfl)

theorem core_tickWallAndFlags (map : List Rectangle) (s : Player) :
    (tickWallAndFlags map s).core = s.core := by
  unfold tickWallAndFlags updateCanJumpIfHittingWall
  simp only []
  repeat' split
  all_goals rfl

theorem core_updateAnimation (cfg : Config) (s : Player) (delta : Rat) :
    (updateAnimation cfg s delta).core = s.core := by
  unfold updateAnimation
  simp only []
  repeat' split
  all_goals first
    | rfl
    | (show (changeAnimation _ _).core = _; rw [core_changeAnimation]; rfl)

theorem core_tickInvincible (s : Player) (delta : Rat) :
    (tickInvincible s delta).core =
      { s.core with invincibleTimer := (s.core.tick delta).invincibleTimer } := by
  unfold tickInvincible
  by_cases h : s.invincibleTimer > 0 <;> simp [h, Player.core, Core.tick]

theorem core_tickJump (s : Player) (delta : Rat) :
    (tickJump s delta).core = { s.core with jumpTimer := (s.core.tick delta).jumpTimer } := by
  unfold tickJump
  by_cases h : s.jumpTimer > 0
  · by_cases hd : toFloat (s.jumpTimer : Rat) ≤ delta <;> simp [h, hd, Player.core, Core.tick]
  · simp [h, Player.core, Core.tick]

theorem core_tickAttack (s : Player) (delta : Rat) :
    (tickAttack s delta).core =
      { s.core with
        attacking := (s.core.tick delta).attacking
        attackCoolDown := (s.core.tick delta).attackCoolDown } := by
  unfold tickAttack
  by_cases h : s.attackCoolDown > 0
  · by_cases hd : toFloat (s.attackCoolDown : Rat) ≤ delta <;> simp [h, hd, Player.core, Core.tick]
  · simp [h, Player.core, Core.tick]

theorem core_tickEffects (cfg : Config) (s : Player) (delta : Rat) :
    (tickEffects cfg s delta).core = s.core := rfl

/-- The `Core` after `update(delta)` is `Core.tick` of the `Core` before, at the
`float` value of `delta`. -/
theorem core_update (cfg : Config) (map : List Rectangle) (s : Player) (delta : Rat) :
    (update cfg map s delta).core = s.core.tick (toFloat delta) := by
  unfold update
  simp only []
  rw [core_updateAnimation, core_tickEffects, core_tickWallAndFlags, core_tickAnimationState,
    core_tickRecoil, core_tickVertical, core_tickHorizontal, core_tickAttack, core_tickJump,
    core_tickInvincible]
  simp [Core.tick]

/-! ## `changeAnimation` only writes the animation and the frame -/

@[simp]
theorem changeAnimation_position (s : Player) (a : Nat) :
    (changeAnimation s a).position = s.position := by
  unfold changeAnimation; split <;> rfl

@[simp]
theorem changeAnimation_collisionBox (s : Player) (a : Nat) :
    (changeAnimation s a).collisionBox = s.collisionBox := by
  unfold changeAnimation; split <;> rfl

@[simp]
theorem changeAnimation_frameCounter (s : Player) (a : Nat) :
    (changeAnimation s a).frameCounter = s.frameCounter := by
  unfold changeAnimation; split <;> rfl

@[simp]
theorem changeAnimation_nextAnim (s : Player) (a : Nat) :
    (changeAnimation s a).nextAnim = s.nextAnim := by
  unfold changeAnimation; split <;> rfl

@[simp]
theorem changeAnimation_moveRight (s : Player) (a : Nat) :
    (changeAnimation s a).moveRight = s.moveRight := by
  unfold changeAnimation; split <;> rfl

@[simp]
theorem changeAnimation_moveLeft (s : Player) (a : Nat) :
    (changeAnimation s a).moveLeft = s.moveLeft := by
  unfold changeAnimation; split <;> rfl

@[simp]
theorem changeAnimation_yVelocity (s : Player) (a : Nat) :
    (changeAnimation s a).yVelocity = s.yVelocity := by
  unfold changeAnimation; split <;> rfl

@[simp]
theorem changeAnimation_faceRight (s : Player) (a : Nat) :
    (changeAnimation s a).faceRight = s.faceRight := by
  unfold changeAnimation; split <;> rfl

@[simp]
theorem changeAnimation_onGround (s : Player) (a : Nat) :
    (changeAnimation s a).onGround = s.onGround := by
  unfold changeAnimation; split <;> rfl

@[simp]
theorem changeAnimation_jumpTimer (s : Player) (a : Nat) :
    (changeAnimation s a).jumpTimer = s.jumpTimer := by
  unfold changeAnimation; split <;> rfl

@[simp]
theorem changeAnimation_canJump (s : Player) (a : Nat) :
    (changeAnimation s a).canJump = s.canJump := by
  unfold changeAnimation; split <;> rfl

@[simp]
theorem changeAnimation_rolling (s : Player) (a : Nat) :
    (changeAnimation s a).rolling = s.rolling := by
  unfold changeAnimation; split <;> rfl

@[simp]
theorem changeAnimation_rollCoolDown (s : Player) (a : Nat) :
    (changeAnimation s a).rollCoolDown = s.rollCoolDown := by
  unfold changeAnimation; split <;> rfl

@[simp]
theorem changeAnimation_attacking (s : Player) (a : Nat) :
    (changeAnimation s a).attacking = s.attacking := by
  unfold changeAnimation; split <;> rfl

@[simp]
theorem changeAnimation_attackCoolDown (s : Player) (a : Nat) :
    (changeAnimation s a).attackCoolDown = s.attackCoolDown := by
  unfold changeAnimation; split <;> rfl

@[simp]
theorem changeAnimation_health (s : Player) (a : Nat) :
    (changeAnimation s a).health = s.health := by
  unfold changeAnimation; split <;> rfl

@[simp]
theorem changeAnimation_invincibleTimer (s : Player) (a : Nat) :
    (changeAnimation s a).invincibleTimer = s.invincibleTimer := by
  unfold changeAnimation; split <;> rfl

@[simp]
theorem changeAnimation_recoilTimer (s : Player) (a : Nat) :
    (changeAnimation s a).recoilTimer = s.recoilTimer := by
  unfold changeAnimation; split <;> rfl

@[simp]
theorem changeAnimation_recoilFaceRight (s : Player) (a : Nat) :
    (changeAnimation s a).recoilFaceRight = s.recoilFaceRight := by
  unfold changeAnimation; split <;> rfl

@[simp]
theorem changeAnimation_DEAD (s : Player) (a : Nat) :
    (changeAnimation s a).DEAD = s.DEAD := by
  unfold changeAnimation; split <;> rfl

@[simp]
theorem changeAnimation_camX (s : Player) (a : Nat) :
    (changeAnimation s a).camX = s.camX := by
  unfold changeAnimation; split <;> rfl

@[simp]
theorem changeAnimation_camY (s : Player) (a : Nat) :
    (changeAnimation s a).camY = s.camY := by
  unfold changeAnimation; split <;> rfl

@[simp]
theorem changeAnimation_effects (s : Player) (a : Nat) :
    (changeAnimation s a).effects = s.effects := by
  unfold changeAnimation; split <;> rfl

@[simp]
theorem changeAnimation_messages (s : Player) (a : Nat) :
    (changeAnimation s a).messages = s.messages := by
  unfold changeAnimation; split <;> rfl

@[simp]
theorem changeAnimation_sounds (s : Player) (a : Nat) :
    (changeAnimation s a).sounds = s.sounds := by
  unfold changeAnimation; split <;> rfl

@[simp]
theorem changeAnimation_atlasFrame (s : Player) (a : Nat) :
    (changeAnimation s a).atlasFrame = s.atlasFrame := by
  unfold changeAnimation; split <;> rfl

@[simp]
theorem changeAnimation_currentAnimation (s : Player) (a : Nat) :
    (changeAnimation s a).currentAnimation = a := by
  unfold changeAnimation; split
  · next h => exact h.symm
  · rfl

/-! ## The `Core` through the action methods -/

theorem core_move (s : Player) (dir : Int) : (move s dir).core = s.core := by
  unfold move
  repeat' split
  all_goals rfl

theorem core_jump (cfg : Config) (s : Player) :
    (jump cfg s).core = { s.core with jumpTimer := (jump cfg s).jumpTimer } := by
  unfold jump
  simp only []
  split
  · split
    · show Core.mk _ _ _ _ _ _ _ _ _ = _
      have h := core_changeAnimation { s with nextAnim := s.currentAnimation }
        (if s.faceRight then cfg.WALL_JUMP_RIGHT else cfg.WALL_JUMP_LEFT)
      simp only [Player.core, Core.mk.injEq] at h ⊢
      obtain ⟨h1, h2, h3, -, h5, h6, h7, h8, h9⟩ := h
      exact ⟨h1, h2, h3, trivial, h5, h6, h7, h8, h9⟩
    · rfl
  · rfl

theorem core_roll (cfg : Config) (s : Player) :
    (roll cfg s).core =
      if s.attacking || s.rolling then s.core
      else { s.core with
             rolling := true, rollCoolDown := cfg.ROLL_TIME,
             invincibleTimer := cfg.INVINCIBLE_TIME } := by
  unfold roll
  by_cases h : (s.attacking || s.rolling) = true
  · rw [if_pos h, if_pos h]
  · rw [if_neg h, if_neg h]
    simp [Player.core]

theorem core_attack (cfg : Config) (s : Player) :
    (attack cfg s).2.core =
      if s.attacking || s.rolling then s.core
      else { s.core with attacking := true, attackCoolDown := cfg.ATTACK_TIME } := by
  unfold attack
  by_cases h : (s.attacking || s.rolling) = true
  · rw [if_pos h, if_pos h]
  · rw [if_neg h, if_neg h]
    simp [Player.core]

theorem core_takeDamage (cfg : Config) (s : Player) (dmg : Int) (right : Bool) :
    (takeDamage cfg s dmg right).core =
      if s.invincibleTimer = 0 then
        { s.core with
          health := s.health - dmg
          recoilTimer := cfg.PLAYER_RECOIL_BAR
          DEAD := if s.health - dmg ≤ 0 then true else s.DEAD
          invincibleTimer := cfg.INVINCIBLE_TIME }
      else s.core := by
  unfold takeDamage
  by_cases h : s.invincibleTimer = 0
  · rw [if_pos h, if_pos h]
    by_cases hd : s.health - dmg ≤ 0 <;> simp [Player.core, hd]
  · rw [if_neg h, if_neg h]

/-! ## The loops of `moveHelp` end -/

theorem isColliding_eq_true_iff (a b : Rectangle) :
    isColliding a b = true ↔
      a.x < b.x + b.w ∧ b.x < a.x + a.w ∧ a.y < b.y + b.h ∧ b.y < a.y + a.h := by
  simp [isColliding, and_assoc]

theorem isColliding_eq_false_iff (a b : Rectangle) :
    isColliding a b = false ↔
      ¬(a.x < b.x + b.w ∧ b.x < a.x + a.w ∧ a.y < b.y + b.h ∧ b.y < a.y + a.h) := by
  rw [← isColliding_eq_true_iff]; simp

/-- The climbing loop, started `k` units above a colliding position from a
position that is clear, stops within `k` steps: on the first colliding height. -/
theorem climbLoop_total (obj : Rectangle) (x w h top : Int) :
    ∀ (k : Nat) (y : Int), y + k = top →
      isColliding ⟨x, y, w, h⟩ obj = false → isColliding ⟨x, top, w, h⟩ obj = true →
      ∃ cy : Int, climbLoop obj (k + 1) ⟨x, y, w, h⟩ = some ⟨x, cy, w, h⟩ ∧
        y < cy ∧ cy ≤ top ∧ isColliding ⟨x, cy, w, h⟩ obj = true ∧
        isColliding ⟨x, cy - 1, w, h⟩ obj = false := by
  intro k
  induction k with
  | zero =>
    intro y hy hclear htop
    have : y = top := by simpa using hy
    subst this
    rw [hclear] at htop
    cases htop
  | succ k ih =>
    intro y hy hclear htop
    rw [climbLoop]
    simp only [hclear, Bool.not_false, if_true]
    by_cases hnext : isColliding ⟨x, y + 1, w, h⟩ obj = true
    · refine ⟨y + 1, ?_, by omega, by push_cast at hy; omega, hnext, ?_⟩
      · rw [climbLoop]
        simp [hnext]
      · simpa using hclear
    · have hnext' : isColliding ⟨x, y + 1, w, h⟩ obj = false := by simpa using hnext
      obtain ⟨cy, h1, h2, h3, h4, h5⟩ := ih (y + 1) (by push_cast at hy; omega) hnext' htop
      exact ⟨cy, h1, by omega, h3, h4, h5⟩

theorem stepUpOrBack_clear (cfg : Config) (w h : Int) (obj : Rectangle) (back : Int)
    (p : Int × Int) (hcol : isColliding ⟨p.1, p.2, w, h⟩ obj = true)
    (hm : isColliding ⟨p.1, p.2 - cfg.UP_MARGIN, w, h⟩ obj = false) :
    ∃ cy : Int, stepUpOrBack cfg (cfg.UP_MARGIN + 1) w h obj back p = some (p.1, cy - 1) ∧
      p.2 - cfg.UP_MARGIN < cy ∧ cy ≤ p.2 ∧ isColliding ⟨p.1, cy, w, h⟩ obj = true ∧
      isColliding ⟨p.1, cy - 1, w, h⟩ obj = false := by
  obtain ⟨cy, h1, h2, h3, h4, h5⟩ :=
    climbLoop_total obj p.1 w h p.2 cfg.UP_MARGIN (p.2 - cfg.UP_MARGIN) (by omega) hm hcol
  refine ⟨cy, ?_, h2, h3, h4, h5⟩
  unfold stepUpOrBack
  simp only [hm, Bool.not_false, if_true, h1, Option.map_some']

theorem stepUpOrBack_blocked (cfg : Config) (inner : Nat) (w h : Int) (obj : Rectangle)
    (back : Int) (p : Int × Int)
    (hm : isColliding ⟨p.1, p.2 - cfg.UP_MARGIN, w, h⟩ obj = true) :
    stepUpOrBack cfg inner w h obj back p = some (p.1 + back, p.2) := by
  unfold stepUpOrBack
  simp [hm]

theorem resolveLoop_clear (cfg : Config) (inner : Nat) (dir : Direction) (w h : Int)
    (obj : Rectangle) (n : Nat) (p : Int × Int)
    (hclear : isColliding ⟨p.1, p.2, w, h⟩ obj = false) :
    resolveLoop cfg inner dir w h obj (n + 1) p = some p := by
  rw [resolveLoop]
  simp [hclear]

/-- On the budget `resolveMeasure + 1` (and `UP_MARGIN + 1` for the climbing
loop) the loop for one obstacle ends through its own test: it returns a
position, and the box there is clear of the obstacle. -/
theorem resolveLoop_total (cfg : Config) (dir : Direction) (w h : Int) (obj : Rectangle) :
    ∀ (n : Nat) (p : Int × Int), resolveMeasure dir w h obj p ≤ n →
      ∃ r : Int × Int,
        resolveLoop cfg (cfg.UP_MARGIN + 1) dir w h obj (n + 1) p = some r ∧
        isColliding ⟨r.1, r.2, w, h⟩ obj = false := by
  intro n
  induction n with
  | zero =>
    intro p hp
    by_cases hcol : isColliding ⟨p.1, p.2, w, h⟩ obj = true
    · exfalso
      have hc := (isColliding_eq_true_iff _ _).mp hcol
      simp only at hc
      cases dir <;> simp only [resolveMeasure] at hp <;> omega
    · have hclear : isColliding ⟨p.1, p.2, w, h⟩ obj = false := by simpa using hcol
      exact ⟨p, resolveLoop_clear cfg _ dir w h obj 0 p hclear, hclear⟩
  | succ m ih =>
    intro p hp
    by_cases hcol : isColliding ⟨p.1, p.2, w, h⟩ obj = true
    · have hc := (isColliding_eq_true_iff _ _).mp hcol
      simp only at hc
      rw [resolveLoop]
      simp only [hcol, if_true]
      have back : ∀ q : Int × Int, resolveBody cfg (cfg.UP_MARGIN + 1) dir w h obj p = some q →
          resolveMeasure dir w h obj q ≤ m →
          ∃ r : Int × Int,
            (resolveBody cfg (cfg.UP_MARGIN + 1) dir w h obj p).bind
              (resolveLoop cfg (cfg.UP_MARGIN + 1) dir w h obj (m + 1)) = some r ∧
            isColliding ⟨r.1, r.2, w, h⟩ obj = false := by
        intro q hq hm
        rw [hq]
        exact ih q hm
      have up : ∀ cy : Int, resolveBody cfg (cfg.UP_MARGIN + 1) dir w h obj p = some (p.1, cy - 1) →
          isColliding ⟨p.1, cy - 1, w, h⟩ obj = false →
          ∃ r : Int × Int,
            (resolveBody cfg (cfg.UP_MARGIN + 1) dir w h obj p).bind
              (resolveLoop cfg (cfg.UP_MARGIN + 1) dir w h obj (m + 1)) = some r ∧
            isColliding ⟨r.1, r.2, w, h⟩ obj = false := by
        intro cy hq hclear
        rw [hq]
        exact ⟨(p.1, cy - 1), resolveLoop_clear cfg _ dir w h obj m (p.1, cy - 1) hclear, hclear⟩
      cases dir with
      | Up =>
        apply back (p.1, p.2 + 1) rfl
        simp only [resolveMeasure] at hp ⊢
        omega
      | Down =>
        apply back (p.1, p.2 - 1) rfl
        simp only [resolveMeasure] at hp ⊢
        omega
      | Right =>
        by_cases hm : isColliding ⟨p.1, p.2 - cfg.UP_MARGIN, w, h⟩ obj = true
        · apply back (p.1 + -1, p.2) (stepUpOrBack_blocked cfg _ w h obj (-1) p hm)
          simp only [resolveMeasure] at hp ⊢
          omega
        · have hm' : isColliding ⟨p.1, p.2 - cfg.UP_MARGIN, w, h⟩ obj = false := by simpa using hm
          obtain ⟨cy, h1, -, -, -, h5⟩ := stepUpOrBack_clear cfg w h obj (-1) p hcol hm'
          exact up cy h1 h5
      | Left =>
        by_cases hm : isColliding ⟨p.1, p.2 - cfg.UP_MARGIN, w, h⟩ obj = true
        · apply back (p.1 + 1, p.2) (stepUpOrBack_blocked cfg _ w h obj 1 p hm)
          simp only [resolveMeasure] at hp ⊢
          omega
        · have hm' : isColliding ⟨p.1, p.2 - cfg.UP_MARGIN, w, h⟩ obj = false := by simpa using hm
          obtain ⟨cy, h1, -, -, -, h5⟩ := stepUpOrBack_clear cfg w h obj 1 p hcol hm'
          exact up cy h1 h5
    · have hclear : isColliding ⟨p.1, p.2, w, h⟩ obj = false := by simpa using hcol
      exact ⟨p, resolveLoop_clear cfg _ dir w h obj (m + 1) p hclear, hclear⟩

/-- The total `resolve` is the value the loop returns, and the box is clear of
the obstacle there. -/
theorem resolve_spec (cfg : Config) (dir : Direction) (w h : Int) (p : Int × Int)
    (obj : Rectangle) :
    resolveLoop cfg (cfg.UP_MARGIN + 1) dir w h obj (resolveMeasure dir w h obj p + 1) p
        = some (resolve cfg dir w h p obj) ∧
      isColliding ⟨(resolve cfg dir w h p obj).1, (resolve cfg dir w h p obj).2, w, h⟩ obj
        = false := by
  obtain ⟨r, h1, h2⟩ := resolveLoop_total cfg dir w h obj _ p le_rfl
  have : resolve cfg dir w h p obj = r := by
    unfold resolve
    rw [h1]
    rfl
  rw [this]
  exact ⟨h1, h2⟩

theorem climbLoop_mono (obj : Rectangle) :
    ∀ (k : Nat) (cm r : Rectangle), climbLoop obj k cm = some r →
      ∀ k' : Nat, k ≤ k' → climbLoop obj k' cm = some r := by
  intro k
  induction k with
  | zero => intro cm r h; simp [climbLoop] at h
  | succ k ih =>
    intro cm r h k' hk
    obtain ⟨j, rfl⟩ : ∃ j, k' = j + 1 := ⟨k' - 1, by omega⟩
    rw [climbLoop] at h ⊢
    split at h
    · next hc => rw [if_pos hc]; exact ih _ _ h j (by omega)
    · next hc => rw [if_neg hc]; exact h

theorem resolveBody_mono (cfg : Config) (dir : Direction) (w h : Int) (obj : Rectangle)
    (i i' : Nat) (hi : i ≤ i') (p q : Int × Int)
    (hq : resolveBody cfg i dir w h obj p = some q) :
    resolveBody cfg i' dir w h obj p = some q := by
  have key : ∀ back : Int, stepUpOrBack cfg i w h obj back p = some q →
      stepUpOrBack cfg i' w h obj back p = some q := by
    intro back hb
    unfold stepUpOrBack at hb ⊢
    simp only [] at hb ⊢
    split at hb
    · next hc =>
      rw [if_pos hc]
      rw [Option.map_eq_some'] at hb ⊢
      obtain ⟨cm, h1, h2⟩ := hb
      exact ⟨cm, climbLoop_mono obj i _ cm h1 i' hi, h2⟩
    · next hc => rw [if_neg hc]; exact hb
  cases dir with
  | Up => exact hq
  | Down => exact hq
  | Right => exact key (-1) hq
  | Left => exact key 1 hq

theorem resolveLoop_mono (cfg : Config) (dir : Direction) (w h : Int) (obj : Rectangle)
    (i i' : Nat) (hi : i ≤ i') :
    ∀ (n : Nat) (p r : Int × Int), resolveLoop cfg i dir w h obj n p = some r →
      ∀ n' : Nat, n ≤ n' → resolveLoop cfg i' dir w h obj n' p = some r := by
  intro n
  induction n with
  | zero => intro p r hr; simp [resolveLoop] at hr
  | succ n ih =>
    intro p r hr n' hn
    obtain ⟨j, rfl⟩ : ∃ j, n' = j + 1 := ⟨n' - 1, by omega⟩
    rw [resolveLoop] at hr ⊢
    split at hr
    · next hc =>
      rw [if_pos hc]
      rw [Option.bind_eq_some] at hr ⊢
      obtain ⟨q, h1, h2⟩ := hr
      exact ⟨q, resolveBody_mono cfg dir w h obj i i' hi p q h1, ih q r h2 j (by omega)⟩
    · next hc => rw [if_neg hc]; exact hr

/-- The loops of `moveHelp` end: on every large enough step budget
`moveHelpFuel` returns a position, the one `moveHelpPos` computes. -/
theorem moveHelpFuel_total (cfg : Config) (map : List Rectangle) (dir : Direction)
    (amount : Int) (box : Rectangle) :
    ∃ fuel : Nat, ∀ fuel' : Nat, fuel ≤ fuel' →
      moveHelpFuel cfg fuel' map dir amount box = some (moveHelpPos cfg map dir amount box) := by
  unfold moveHelpFuel moveHelpPos
  generalize displaced dir amount box = p
  induction map generalizing p with
  | nil => exact ⟨0, fun _ _ => rfl⟩
  | cons obj rest ih =>
    obtain ⟨F1, hF1⟩ := ih (resolve cfg dir box.w box.h p obj)
    have hs := (resolve_spec cfg dir box.w box.h p obj).1
    refine ⟨max (max (cfg.UP_MARGIN + 1) (resolveMeasure dir box.w box.h obj p + 1)) F1, ?_⟩
    intro F hF
    have h1 : cfg.UP_MARGIN + 1 ≤ F := by omega
    have h2 : resolveMeasure dir box.w box.h obj p + 1 ≤ F := by omega
    have h3 : F1 ≤ F := by omega
    rw [List.foldlM_cons, List.foldl_cons,
      resolveLoop_mono cfg dir box.w box.h obj _ F h1 _ p _ hs F h2]
    exact hF1 F h3

theorem resolve_of_clear (cfg : Config) (dir : Direction) (w h : Int) (p : Int × Int)
    (obj : Rectangle) (hclear : isColliding ⟨p.1, p.2, w, h⟩ obj = false) :
    resolve cfg dir w h p obj = p := by
  unfold resolve
  rw [resolveLoop_clear cfg _ dir w h obj _ p hclear]
  rfl

/-- The step-up into the ceiling does not depend on the value of `UP_MARGIN`:
with any margin of at least one unit, `moveHelp(Right, 30)`
from `(0, 0)` in `corridorMap` climbs the bump and ends at `(30, -1)`, where the
box overlaps the ceiling. -/
theorem stepUp_into_ceiling (cfg : Config) (hm : 1 ≤ cfg.UP_MARGIN) :
    moveHelpPos cfg corridorMap Direction.Right 30 ⟨0, 0, 44, 64⟩ = (30, -1) ∧
      isColliding ⟨30, -1, 44, 64⟩ ⟨-100, -10, 1000, 10⟩ = true := by
  refine ⟨?_, by decide⟩
  have e1 : resolve cfg Direction.Right 44 64 (30, 0) ⟨-100, -10, 1000, 10⟩ = (30, 0) :=
    resolve_of_clear cfg _ _ _ _ _ (by decide)
  have e2 : resolve cfg Direction.Right 44 64 (30, 0) ⟨-100, 64, 1000, 10⟩ = (30, 0) :=
    resolve_of_clear cfg _ _ _ _ _ (by decide)
  have hcol : isColliding ⟨((30 : Int), (0 : Int)).1, ((30 : Int), (0 : Int)).2, 44, 64⟩
      ⟨50, 63, 10, 1⟩ = true := by decide
  have hclear : isColliding ⟨((30 : Int), (0 : Int)).1,
      ((30 : Int), (0 : Int)).2 - cfg.UP_MARGIN, 44, 64⟩ ⟨50, 63, 10, 1⟩ = false := by
    rw [isColliding_eq_false_iff]
    simp only
    omega
  obtain ⟨cy, h1, h2, h3, h4, h5⟩ :=
    stepUpOrBack_clear cfg 44 64 ⟨50, 63, 10, 1⟩ (-1) ((30 : Int), (0 : Int)) hcol hclear
  have hcy : cy = 0 := by
    have := (isColliding_eq_true_iff _ _).mp h4
    simp only at this h3
    omega
  subst hcy
  have e3 : resolve cfg Direction.Right 44 64 (30, 0) ⟨50, 63, 10, 1⟩ = (30, -1) := by
    unfold resolve
    have hn : resolveMeasure Direction.Right 44 64 ⟨50, 63, 10, 1⟩ ((30 : Int), (0 : Int))
        = 23 + 1 := by decide
    rw [hn, resolveLoop]
    simp only [hcol, if_true, resolveBody, h1, Option.some_bind]
    rw [resolveLoop_clear cfg _ _ _ _ _ 23 _ h5]
    rfl
  show List.foldl (resolve cfg Direction.Right 44 64) (30, 0) corridorMap = (30, -1)
  simp only [corridorMap, List.foldl_cons, List.foldl_nil, e1, e2, e3]

/-! ## Invariants along a sequence of calls -/

theorem step_exclusive (cfg : Config) (map : List Rectangle) (s : Player) (c : Call)
    (h : ¬(s.attacking = true ∧ s.rolling = true)) :
    ¬((step cfg map s c).attacking = true ∧ (step cfg map s c).rolling = true) := by
  cases c with
  | move dir =>
    show ¬((move s dir).core.attacking = true ∧ (move s dir).core.rolling = true)
    rw [core_move]; exact h
  | jump =>
    show ¬((jump cfg s).core.attacking = true ∧ (jump cfg s).core.rolling = true)
    rw [core_jump]; exact h
  | roll =>
    show ¬((roll cfg s).core.attacking = true ∧ (roll cfg s).core.rolling = true)
    rw [core_roll]
    cases ha : s.attacking <;> cases hr : s.rolling <;> simp_all [Player.core]
  | attack =>
    show ¬((attack cfg s).2.core.attacking = true ∧ (attack cfg s).2.core.rolling = true)
    rw [core_attack]
    cases ha : s.attacking <;> cases hr : s.rolling <;> simp_all [Player.core]
  | takeDamage dmg right =>
    show ¬((takeDamage cfg s dmg right).core.attacking = true ∧
      (takeDamage cfg s dmg right).core.rolling = true)
    rw [core_takeDamage]
    split <;> exact h
  | update delta =>
    show ¬((update cfg map s delta).core.attacking = true ∧
      (update cfg map s delta).core.rolling = true)
    rw [core_update]
    cases ha : s.attacking <;> cases hr : s.rolling <;> simp_all [Player.core, Core.tick]
    all_goals
      repeat' split
      all_goals simp_all

theorem run_exclusive (cfg : Config) (map : List Rectangle) (calls : List Call) :
    ∀ s : Player, ¬(s.attacking = true ∧ s.rolling = true) →
      ¬((run cfg map s calls).attacking = true ∧ (run cfg map s calls).rolling = true) := by
  induction calls with
  | nil => intro s h; exact h
  | cons c cs ih => intro s h; exact ih _ (step_exclusive cfg map s c h)

theorem step_health_le (cfg : Config) (map : List Rectangle) (s : Player) (c : Call)
    (h : c.damageNonneg) : (step cfg map s c).health ≤ s.health := by
  cases c with
  | move dir => exact le_of_eq (congrArg Core.health (core_move s dir))
  | jump => exact le_of_eq (congrArg Core.health (core_jump cfg s))
  | roll =>
    show (roll cfg s).core.health ≤ s.health
    rw [core_roll]
    split <;> simp [Player.core]
  | attack =>
    show (attack cfg s).2.core.health ≤ s.health
    rw [core_attack]
    split <;> simp [Player.core]
  | takeDamage dmg right =>
    have hd : 0 ≤ dmg := h
    show (takeDamage cfg s dmg right).core.health ≤ s.health
    rw [core_takeDamage]
    split <;> simp [Player.core, hd]
  | update delta => exact le_of_eq (congrArg Core.health (core_update cfg map s delta))

theorem step_DEAD (cfg : Config) (map : List Rectangle) (s : Player) (c : Call)
    (h : s.DEAD = true) : (step cfg map s c).DEAD = true := by
  cases c with
  | move dir => exact (congrArg Core.DEAD (core_move s dir)).trans h
  | jump => exact (congrArg Core.DEAD (core_jump cfg s)).trans h
  | roll =>
    show (roll cfg s).core.DEAD = true
    rw [core_roll]
    split <;> simp [Player.core, h]
  | attack =>
    show (attack cfg s).2.core.DEAD = true
    rw [core_attack]
    split <;> simp [Player.core, h]
  | takeDamage dmg right =>
    show (takeDamage cfg s dmg right).core.DEAD = true
    rw [core_takeDamage]
    split <;> simp [Player.core, h]
  | update delta => exact (congrArg Core.DEAD (core_update cfg map s delta)).trans h

theorem run_health_le (cfg : Config) (map : List Rectangle) (calls : List Call) :
    ∀ s : Player, (∀ c ∈ calls, c.damageNonneg) → (run cfg map s calls).health ≤ s.health := by
  induction calls with
  | nil => intro s _; exact le_rfl
  | cons c cs ih =>
    intro s h
    exact le_trans (ih _ fun c' hc' => h c' (List.mem_cons_of_mem _ hc'))
      (step_health_le cfg map s c (h c (List.mem_cons_self _ _)))

theorem run_DEAD (cfg : Config) (map : List Rectangle) (calls : List Call) :
    ∀ s : Player, s.DEAD = true → (run cfg map s calls).DEAD = true := by
  induction calls with
  | nil => intro s h; exact h
  | cons c cs ih => intro s h; exact ih _ (step_DEAD cfg map s c h)

theorem step_alive (cfg : Config) (map : List Rectangle) (s : Player) (c : Call)
    (h : 0 ≤ s.health ∨ s.DEAD = true) :
    0 ≤ (step cfg map s c).health ∨ (step cfg map s c).DEAD = true := by
  have hc : 0 ≤ s.core.health ∨ s.core.DEAD = true := h
  cases c with
  | move dir =>
    show 0 ≤ (move s dir).core.health ∨ (move s dir).core.DEAD = true
    rw [core_move]; exact hc
  | jump =>
    show 0 ≤ (jump cfg s).core.health ∨ (jump cfg s).core.DEAD = true
    rw [core_jump]; exact hc
  | roll =>
    show 0 ≤ (roll cfg s).core.health ∨ (roll cfg s).core.DEAD = true
    rw [core_roll]
    split
    · exact hc
    · exact h
  | attack =>
    show 0 ≤ (attack cfg s).2.core.health ∨ (attack cfg s).2.core.DEAD = true
    rw [core_attack]
    split
    · exact hc
    · exact h
  | takeDamage dmg right =>
    show 0 ≤ (takeDamage cfg s dmg right).core.health ∨
      (takeDamage cfg s dmg right).core.DEAD = true
    rw [core_takeDamage]
    split
    · by_cases hd : s.health - dmg ≤ 0
      · right; simp [hd]
      · left
        show 0 ≤ s.health - dmg
        omega
    · exact hc
  | update delta =>
    show 0 ≤ (update cfg map s delta).core.health ∨ (update cfg map s delta).core.DEAD = true
    rw [core_update]
    exact hc

theorem run_alive (cfg : Config) (map : List Rectangle) (calls : List Call) :
    ∀ s : Player, (0 ≤ s.health ∨ s.DEAD = true) →
      (0 ≤ (run cfg map s calls).health ∨ (run cfg map s calls).DEAD = true) := by
  induction calls with
  | nil => intro s h; exact h
  | cons c cs ih => intro s h; exact ih _ (step_alive cfg map s c h)

/-! ## Vertical moves -/

theorem foldl_resolve_of_clear (cfg : Config) (dir : Direction) (w h : Int) (p : Int × Int) :
    ∀ map : List Rectangle, (∀ obj ∈ map, isColliding ⟨p.1, p.2, w, h⟩ obj = false) →
      map.foldl (resolve cfg dir w h) p = p := by
  intro map
  induction map with
  | nil => intro _; rfl
  | cons obj rest ih =>
    intro hc
    rw [List.foldl_cons, resolve_of_clear cfg dir w h p obj (hc obj (List.mem_cons_self _ _))]
    exact ih fun o ho => hc o (List.mem_cons_of_mem _ ho)

/-- Where the displaced box is clear of the whole map, `moveHelp` moves by the
full amount. -/
theorem moveHelpPos_of_clear (cfg : Config) (map : List Rectangle) (dir : Direction)
    (amount : Int) (box : Rectangle)
    (hc : clearOf map
      ⟨(displaced dir amount box).1, (displaced dir amount box).2, box.w, box.h⟩) :
    moveHelpPos cfg map dir amount box = displaced dir amount box :=
  foldl_resolve_of_clear cfg dir box.w box.h _ map hc

/-- The step-up for one obstacle: where the displaced box collides and the box
raised by `UP_MARGIN` is clear, the loop ends on the first height above the
obstacle, without giving way horizontally. -/
theorem resolve_stepUp (cfg : Config) (dir : Direction) (w h : Int) (obj : Rectangle)
    (p : Int × Int) (hdir : dir = Direction.Right ∨ dir = Direction.Left)
    (hcol : isColliding ⟨p.1, p.2, w, h⟩ obj = true)
    (hm : isColliding ⟨p.1, p.2 - cfg.UP_MARGIN, w, h⟩ obj = false) :
    ∃ cy : Int, resolve cfg dir w h p obj = (p.1, cy - 1) ∧
      p.2 - cfg.UP_MARGIN < cy ∧ cy ≤ p.2 ∧ isColliding ⟨p.1, cy, w, h⟩ obj = true ∧
      isColliding ⟨p.1, cy - 1, w, h⟩ obj = false := by
  have hc := (isColliding_eq_true_iff _ _).mp hcol
  simp only at hc
  have hmeas : ∃ m : Nat, resolveMeasure dir w h obj p = m + 1 := by
    rcases hdir with rfl | rfl
    · exact ⟨(p.1 + w - obj.x).toNat - 1, by simp only [resolveMeasure]; omega⟩
    · exact ⟨(obj.x + obj.w - p.1).toNat - 1, by simp only [resolveMeasure]; omega⟩
  obtain ⟨m, hmeas⟩ := hmeas
  have hbody : ∃ cy : Int,
      resolveBody cfg (cfg.UP_MARGIN + 1) dir w h obj p = some (p.1, cy - 1) ∧
      p.2 - cfg.UP_MARGIN < cy ∧ cy ≤ p.2 ∧ isColliding ⟨p.1, cy, w, h⟩ obj = true ∧
      isColliding ⟨p.1, cy - 1, w, h⟩ obj = false := by
    rcases hdir with rfl | rfl
    · exact stepUpOrBack_clear cfg w h obj (-1) p hcol hm
    · exact stepUpOrBack_clear cfg w h obj 1 p hcol hm
  obtain ⟨cy, h1, h2, h3, h4, h5⟩ := hbody
  refine ⟨cy, ?_, h2, h3, h4, h5⟩
  unfold resolve
  rw [hmeas, resolveLoop]
  simp only [hcol, if_true, h1, Option.some_bind]
  rw [resolveLoop_clear cfg _ dir w h obj m (p.1, cy - 1) h5]
  rfl

/-! ## A tick of a grounded player -/

theorem motion_changeAnimation (s : Player) (a : Nat) :
    (changeAnimation s a).motion = s.motion := by
  unfold changeAnimation
  split <;> rfl

theorem motion_tickInvincible (s : Player) (delta : Rat) :
    (tickInvincible s delta).motion = s.motion := by
  unfold tickInvincible
  simp only []
  repeat' split
  all_goals rfl

theorem motion_tickJump (s : Player) (delta : Rat) : (tickJump s delta).motion = s.motion := by
  unfold tickJump
  repeat' split
  all_goals rfl

theorem motion_tickAttack (s : Player) (delta : Rat) (ha : s.attacking = false) :
    (tickAttack s delta).motion = s.motion := by
  unfold tickAttack
  repeat' split
  all_goals simp [Player.motion, ha]

theorem motion_updateYVelocityIfHittingCeiling (map : List Rectangle) (s : Player) :
    (updateYVelocityIfHittingCeiling map s).motion = s.motion := by
  unfold updateYVelocityIfHittingCeiling
  split <;> rfl

theorem motion_tickAnimationState (cfg : Config) (map : List Rectangle) (s : Player) :
    (tickAnimationState cfg map s).motion = { s.motion with onGround := detectOnGround map s } := by
  unfold tickAnimationState
  simp only []
  repeat' split
  all_goals first
    | rfl
    | (show Player.motion (changeAnimation _ _) = _; rw [motion_changeAnimation]; rfl)

theorem motion_tickWallAndFlags (map : List Rectangle) (s : Player) :
    (tickWallAndFlags map s).motion = { s.motion with moveRight := false, moveLeft := false } := by
  unfold tickWallAndFlags updateCanJumpIfHittingWall
  simp only []
  repeat' split
  all_goals rfl

theorem motion_updateAnimation (cfg : Config) (s : Player) (delta : Rat) :
    (updateAnimation cfg s delta).motion = s.motion := by
  unfold updateAnimation
  simp only []
  repeat' split
  all_goals first
    | rfl
    | (show Player.motion (changeAnimation _ _) = _; rw [motion_changeAnimation]; rfl)

theorem truncInt_zero : truncInt 0 = 0 := by decide!

theorem clamp_zero : clamp 0 (-20) 20 = 0 := by decide!

theorem walking_pre (s : Player) (delta : Rat) (box : Rectangle) (mr fr rf : Bool) (p : Vec2)
    (h : s.motion = walking box mr fr rf p) :
    (tickAttack (tickJump (tickInvincible s delta) delta) delta).motion
      = walking box mr fr rf p := by
  have e1 := motion_tickInvincible s delta
  have e2 := (motion_tickJump (tickInvincible s delta) delta).trans e1
  have a2 : (tickJump (tickInvincible s delta) delta).attacking = false :=
    congrArg Motion.attacking (e2.trans h)
  exact ((motion_tickAttack _ delta a2).trans e2).trans h

theorem moveHelp_collisionBox_of_clear (cfg : Config) (map : List Rectangle) (s : Player)
    (dir : Direction) (amount : Int)
    (hc : clearOf map
      ⟨(displaced dir amount s.collisionBox).1, (displaced dir amount s.collisionBox).2,
        s.collisionBox.w, s.collisionBox.h⟩) :
    (moveHelp cfg map s dir amount).collisionBox =
      ⟨(displaced dir amount s.collisionBox).1, (displaced dir amount s.collisionBox).2,
        s.collisionBox.w, s.collisionBox.h⟩ := by
  simp only [moveHelp, moveHelpPos_of_clear cfg map dir amount s.collisionBox hc]

theorem walking_horizontal (cfg : Config) (map : List Rectangle) (t : Player) (delta : Rat)
    (box : Rectangle) (mr fr rf : Bool) (p : Vec2) (amt : Int)
    (h : t.motion = walking box mr fr rf p)
    (hamt : amt = if mr then walkAmount cfg delta else 0)
    (hclear : clearOf map { box with x := box.x + amt }) :
    ∃ p' : Vec2, (tickHorizontal cfg map t delta).motion
      = walking { box with x := box.x + amt } mr fr rf p' := by
  have hr : t.rolling = false := congrArg Motion.rolling h
  have hl : t.moveLeft = false := congrArg Motion.moveLeft h
  have hm : t.moveRight = mr := congrArg Motion.moveRight h
  have hb : t.collisionBox = box := congrArg Motion.collisionBox h
  unfold tickHorizontal
  rw [if_neg (by simp [hr])]
  simp only []
  cases mr with
  | false =>
    rw [if_neg (by simp [hm, hl]), if_neg (by simp [hm, hl])]
    have : amt = 0 := by simpa using hamt
    subst this
    refine ⟨p, ?_⟩
    rw [h]
    simp [walking]
  | true =>
    rw [if_pos hm]
    have hl' : (moveHelp cfg map t Direction.Right (walkAmount cfg delta)).moveLeft = false := hl
    rw [if_neg (by simp [hl'])]
    have ha : amt = walkAmount cfg delta := by simpa using hamt
    rw [← ha]
    have hbox := moveHelp_collisionBox_of_clear cfg map t Direction.Right amt
      (by rw [hb]; exact hclear)
    rw [hb] at hbox
    refine ⟨(moveHelp cfg map t Direction.Right amt).position, ?_⟩
    have h1 : (moveHelp cfg map t Direction.Right amt).motion
        = { t.motion with
            position := (moveHelp cfg map t Direction.Right amt).position
            collisionBox := (moveHelp cfg map t Direction.Right amt).collisionBox } := rfl
    rw [h1, hbox, h]
    simp [walking, displaced]

theorem moveHelp_zero_of_clear (cfg : Config) (map : List Rectangle) (s : Player)
    (dir : Direction) (hc : clearOf map s.collisionBox) :
    (moveHelp cfg map s dir 0).collisionBox = s.collisionBox := by
  have hd : displaced dir 0 s.collisionBox = (s.collisionBox.x, s.collisionBox.y) := by
    cases dir <;> simp [displaced]
  rw [moveHelp_collisionBox_of_clear cfg map s dir 0 (by rw [hd]; exact hc), hd]

theorem tickVertical_grounded (cfg : Config) (map : List Rectangle) (v : Player) (delta : Rat)
    (hg : v.onGround = true) :
    ∃ w : Player, tickVertical cfg map v delta = moveHelp cfg map w Direction.Up 0 ∧
      w.motion = v.motion := by
  have e := motion_updateYVelocityIfHittingCeiling map v
  have hg' : (updateYVelocityIfHittingCeiling map v).onGround = true :=
    (congrArg Motion.onGround e).trans hg
  unfold tickVertical
  simp only [hg', Bool.not_true, Bool.false_eq_true, if_false, clamp_zero, lt_irrefl,
    truncInt_zero]
  refine ⟨_, rfl, ?_⟩
  rw [← e]
  simp [Player.motion, hg']

theorem walking_vertical (cfg : Config) (map : List Rectangle) (v : Player) (delta : Rat)
    (box : Rectangle) (mr fr rf : Bool) (p : Vec2)
    (h : v.motion = walking box mr fr rf p) (hclear : clearOf map box) :
    ∃ p' : Vec2, (tickVertical cfg map v delta).motion = walking box mr fr rf p' := by
  obtain ⟨w, hw, hwv⟩ := tickVertical_grounded cfg map v delta (congrArg Motion.onGround h)
  have hwm : w.motion = walking box mr fr rf p := hwv.trans h
  have hwb : w.collisionBox = box := congrArg Motion.collisionBox hwm
  have hbox := moveHelp_zero_of_clear cfg map w Direction.Up (by rw [hwb]; exact hclear)
  refine ⟨(moveHelp cfg map w Direction.Up 0).position, ?_⟩
  have h1 : (moveHelp cfg map w Direction.Up 0).motion
      = { w.motion with
          position := (moveHelp cfg map w Direction.Up 0).position
          collisionBox := (moveHelp cfg map w Direction.Up 0).collisionBox } := rfl
  rw [hw, h1, hbox, hwb, hwm]
  simp [walking]

theorem walking_recoil (cfg : Config) (map : List Rectangle) (v : Player) (delta : Rat)
    (box : Rectangle) (mr fr rf : Bool) (p : Vec2) (h : v.motion = walking box mr fr rf p) :
    tickRecoil cfg map v delta = v := by
  have hrec : v.recoilTimer = 0 := congrArg Motion.recoilTimer h
  unfold tickRecoil
  rw [if_neg (by simp [hrec])]

theorem walking_animation (cfg : Config) (map : List Rectangle) (v : Player)
    (box : Rectangle) (mr fr rf : Bool) (p : Vec2) (h : v.motion = walking box mr fr rf p)
    (hfloor : (map.any fun obj => isColliding { box with y := box.y + 1 } obj) = true) :
    (tickAnimationState cfg map v).motion = walking box mr fr rf p ∧
      (tickAnimationState cfg map v).currentAnimation = groundAnimation cfg mr fr := by
  have hr : v.rolling = false := congrArg Motion.rolling h
  have ha : v.attacking = false := congrArg Motion.attacking h
  have hl : v.moveLeft = false := congrArg Motion.moveLeft h
  have hm : v.moveRight = mr := congrArg Motion.moveRight h
  have hf : v.faceRight = fr := congrArg Motion.faceRight h
  have hb : v.collisionBox = box := congrArg Motion.collisionBox h
  have hdet : detectOnGround map v = true := by
    unfold detectOnGround
    rw [hb]
    exact hfloor
  constructor
  · rw [motion_tickAnimationState, hdet, h]
    rfl
  · unfold tickAnimationState
    simp only [hdet, hr, ha, hm, hl, hf]
    cases mr <;> cases fr <;> simp [groundAnimation]

theorem tickWallAndFlags_currentAnimation (map : List Rectangle) (s : Player) :
    (tickWallAndFlags map s).currentAnimation = s.currentAnimation := by
  unfold tickWallAndFlags updateCanJumpIfHittingWall
  simp only []
  repeat' split
  all_goals rfl

theorem updateAnimation_currentAnimation_of_loop (cfg : Config) (s : Player) (delta : Rat)
    (h : statePlayOnce s.currentAnimation = false) :
    (updateAnimation cfg s delta).currentAnimation = s.currentAnimation := by
  unfold updateAnimation
  simp only [h, Bool.false_eq_true, if_false]
  repeat' split
  all_goals rfl

/-- One tick of a grounded player that neither rolls nor attacks nor recoils,
with free room at its destination and ground under it: the box moves by the
whole amount (if asked to move right), the intents are consumed and the
animation is the one of the ground. -/
theorem update_walking (cfg : Config) (map : List Rectangle) (s : Player) (delta : Rat)
    (box : Rectangle) (mr fr rf : Bool) (p : Vec2) (amt : Int)
    (h : s.motion = walking box mr fr rf p)
    (hamt : amt = if mr then walkAmount cfg (toFloat delta) else 0)
    (hclear : clearOf map { box with x := box.x + amt })
    (hfloor : (map.any fun obj =>
      isColliding { box with x := box.x + amt, y := box.y + 1 } obj) = true)
    (hloop : statePlayOnce (groundAnimation cfg mr fr) = false) :
    (∃ p' : Vec2, (update cfg map s delta).motion
        = walking { box with x := box.x + amt } false fr rf p') ∧
      (update cfg map s delta).currentAnimation = groundAnimation cfg mr fr := by
  have h3 := walking_pre s (toFloat delta) box mr fr rf p h
  obtain ⟨p4, h4⟩ := walking_horizontal cfg map _ (toFloat delta) box mr fr rf p amt h3 hamt hclear
  obtain ⟨p5, h5⟩ := walking_vertical cfg map _ (toFloat delta) _ mr fr rf p4 h4 hclear
  have h6 := walking_recoil cfg map _ (toFloat delta) _ mr fr rf p5 h5
  have h7 := walking_animation cfg map _ _ mr fr rf p5 h5 hfloor
  unfold update
  simp only []
  rw [h6]
  constructor
  · refine ⟨p5, ?_⟩
    rw [motion_updateAnimation]
    show (tickWallAndFlags map _).motion = _
    rw [motion_tickWallAndFlags, h7.1]
    rfl
  · rw [updateAnimation_currentAnimation_of_loop]
    · show (tickWallAndFlags map _).currentAnimation = _
      rw [tickWallAndFlags_currentAnimation, h7.2]
    · show statePlayOnce (tickWallAndFlags map _).currentAnimation = false
      rw [tickWallAndFlags_currentAnimation, h7.2]
      exact hloop

theorem update_resets_intents (cfg : Config) (map : List Rectangle) (s : Player) (delta : Rat) :
    (update cfg map s delta).moveRight = false ∧ (update cfg map s delta).moveLeft = false := by
  have h : (update cfg map s delta).motion.moveRight = false ∧
      (update cfg map s delta).motion.moveLeft = false := by
    unfold update
    simp only []
    rw [motion_updateAnimation]
    constructor
    · show (tickWallAndFlags map _).motion.moveRight = false
      rw [motion_tickWallAndFlags]
    · show (tickWallAndFlags map _).motion.moveLeft = false
      rw [motion_tickWallAndFlags]
  exact h

theorem moveHelp_offset (cfg : Config) (map : List Rectangle) (s : Player) (dir : Direction)
    (amount : Int) :
    (moveHelp cfg map s dir amount).collisionBox.x
        = (moveHelp cfg map s dir amount).position.x + cfg.HIT_BOX_MARGIN_X ∧
      (moveHelp cfg map s dir amount).collisionBox.y
        = (moveHelp cfg map s dir amount).position.y := by
  simp [moveHelp]

/-- After every `update` the collision box sits `HIT_BOX_MARGIN_X` to the right
of the visual position: the vertical `moveHelp` of each tick writes both. -/
theorem update_offset (cfg : Config) (map : List Rectangle) (s : Player) (delta : Rat) :
    (update cfg map s delta).collisionBox.x
        = (update cfg map s delta).position.x + cfg.HIT_BOX_MARGIN_X ∧
      (update cfg map s delta).collisionBox.y = (update cfg map s delta).position.y := by
  have key : ∀ (d : Rat) (v : Player),
      (tickRecoil cfg map (tickVertical cfg map v d) d).collisionBox.x
          = (tickRecoil cfg map (tickVertical cfg map v d) d).position.x
            + cfg.HIT_BOX_MARGIN_X ∧
        (tickRecoil cfg map (tickVertical cfg map v d) d).collisionBox.y
          = (tickRecoil cfg map (tickVertical cfg map v d) d).position.y := by
    intro d v
    have hv : (tickVertical cfg map v d).collisionBox.x
          = (tickVertical cfg map v d).position.x + cfg.HIT_BOX_MARGIN_X ∧
        (tickVertical cfg map v d).collisionBox.y
          = (tickVertical cfg map v d).position.y := by
      unfold tickVertical
      simp only []
      repeat' split
      all_goals exact moveHelp_offset cfg map _ _ _
    unfold tickRecoil
    split
    · exact moveHelp_offset cfg map _ _ _
    · exact hv
  have hm : ∀ (d : Rat) (v : Player),
      (updateAnimation cfg (tickEffects cfg (tickWallAndFlags map
        (tickAnimationState cfg map v)) d) d).motion
        = { v.motion with
            onGround := detectOnGround map v, moveRight := false, moveLeft := false } := by
    intro d v
    rw [motion_updateAnimation]
    show (tickWallAndFlags map _).motion = _
    rw [motion_tickWallAndFlags, motion_tickAnimationState]
  unfold update
  simp only []
  generalize toFloat delta = d
  have hb := congrArg Motion.collisionBox (hm d (tickRecoil cfg map (tickVertical cfg map
    (tickHorizontal cfg map (tickAttack (tickJump (tickInvincible s d) d) d) d) d) d))
  have hp := congrArg Motion.position (hm d (tickRecoil cfg map (tickVertical cfg map
    (tickHorizontal cfg map (tickAttack (tickJump (tickInvincible s d) d) d) d) d) d))
  simp only [Player.motion] at hb hp
  rw [hb, hp]
  exact key d _

/-! ## The attack cooldown -/

theorem truncInt_nonpos {q : Rat} (h : q ≤ 0) : truncInt q ≤ 0 := by
  unfold truncInt
  split
  · next h0 =>
    have : q = 0 := le_antisymm h h0
    subst this
    decide!
  · have : (0 : Int) ≤ Rat.floor (-q) := Rat.le_floor.mpr (by simpa using h)
    omega

/-- A positive `int` that does not compare `<=` to the `float` `delta` is above
the truncation of `delta`. -/
theorem truncInt_lt_of_toFloat_gt {t : Int} (delta : Rat) (ht : 0 < t)
    (h : ¬ toFloat (t : Rat) ≤ toFloat delta) : truncInt (toFloat delta) < t := by
  by_contra hc
  have hc1 : t ≤ truncInt (toFloat delta) := not_lt.mp hc
  by_cases h0 : 0 ≤ toFloat delta
  · have h1 := truncInt_le h0
    have h2 : (t : Rat) ≤ ((truncInt (toFloat delta) : Int) : Rat) := by exact_mod_cast hc1
    have h3 : (0 : Rat) ≤ (t : Rat) := by exact_mod_cast le_of_lt ht
    exact h (toFloat_le_of_le h3 (le_trans h2 h1))
  · have := truncInt_nonpos (le_of_lt (not_le.mp h0))
    omega

theorem step_attacking_iff (cfg : Config) (map : List Rectangle) (s : Player) (c : Call)
    (hA : 0 < cfg.ATTACK_TIME) (h : s.attacking = true ↔ 0 < s.attackCoolDown) :
    (step cfg map s c).attacking = true ↔ 0 < (step cfg map s c).attackCoolDown := by
  cases c with
  | move dir =>
    show (move s dir).core.attacking = true ↔ 0 < (move s dir).core.attackCoolDown
    rw [core_move]; exact h
  | jump =>
    show (jump cfg s).core.attacking = true ↔ 0 < (jump cfg s).core.attackCoolDown
    rw [core_jump]; exact h
  | roll =>
    show (roll cfg s).core.attacking = true ↔ 0 < (roll cfg s).core.attackCoolDown
    rw [core_roll]
    split <;> exact h
  | attack =>
    show (attack cfg s).2.core.attacking = true ↔ 0 < (attack cfg s).2.core.attackCoolDown
    rw [core_attack]
    split
    · exact h
    · simp [hA]
  | takeDamage dmg right =>
    show (takeDamage cfg s dmg right).core.attacking = true ↔
      0 < (takeDamage cfg s dmg right).core.attackCoolDown
    rw [core_takeDamage]
    split <;> exact h
  | update delta =>
    show (update cfg map s delta).core.attacking = true ↔
      0 < (update cfg map s delta).core.attackCoolDown
    rw [core_update]
    simp only [Core.tick, Player.core]
    by_cases hc : s.attackCoolDown > 0
    · by_cases hd : toFloat (s.attackCoolDown : Rat) ≤ toFloat delta
      · simp [hc, hd]
      · have := truncInt_lt_of_toFloat_gt delta hc hd
        simp only [hc, hd, if_true, if_false]
        constructor
        · intro _; omega
        · intro _; exact h.mpr hc
    · have hc' : ¬ 0 < s.attackCoolDown := hc
      simp only [hc, if_false]
      constructor
      · intro hh; exact absurd (h.mp hh) hc'
      · intro hh; exact hh.elim

theorem run_attacking_iff (cfg : Config) (map : List Rectangle) (hA : 0 < cfg.ATTACK_TIME)
    (calls : List Call) :
    ∀ s : Player, (s.attacking = true ↔ 0 < s.attackCoolDown) →
      ((run cfg map s calls).attacking = true ↔ 0 < (run cfg map s calls).attackCoolDown) := by
  induction calls with
  | nil => intro s h; exact h
  | cons c cs ih => intro s h; exact ih _ (step_attacking_iff cfg map s c hA h)

/-! ## The frame stays in range -/

theorem animStart_le_animEnd (a : Nat) : animStart a ≤ animEnd a := by
  by_cases h : a < 15
  · interval_cases a <;> decide
  · have : animationsTable.getD a (0, 0) = (0, 0) := by
      rw [List.getD_eq_default]
      simp only [animationsTable, List.length_cons, List.length_nil]
      omega
    unfold animStart animEnd
    rw [this]

theorem frameInRange_congr (s t : Player) (h : t.anim = s.anim) (hs : frameInRange s) :
    frameInRange t := by
  simp only [Player.anim, Prod.mk.injEq] at h
  obtain ⟨h1, h2, h3⟩ := h
  unfold frameInRange at hs ⊢
  rw [h1, h2, h3]
  exact hs

theorem changeAnimation_currentFrame (s : Player) (a : Nat) :
    (changeAnimation s a).currentFrame
      = if a = s.currentAnimation then s.currentFrame else animStart a := by
  unfold changeAnimation
  split <;> rfl

theorem frameInRange_changeAnimation (s : Player) (a : Nat) (ha : a < animationsTable.length)
    (hs : frameInRange s) : frameInRange (changeAnimation s a) := by
  unfold frameInRange at hs ⊢
  rw [changeAnimation_currentAnimation, changeAnimation_nextAnim, changeAnimation_currentFrame]
  refine ⟨ha, hs.2.1, ?_, ?_⟩
  · split
    · next h => rw [h]; exact hs.2.2.1
    · exact le_rfl
  · split
    · next h => rw [h]; exact hs.2.2.2
    · exact animStart_le_animEnd a

theorem frameInRange_nextAnim (s t : Player) (n : Nat) (hn : n < animationsTable.length)
    (h1 : t.currentAnimation = s.currentAnimation) (h2 : t.currentFrame = s.currentFrame)
    (h3 : t.nextAnim = n) (hs : frameInRange s) : frameInRange t := by
  unfold frameInRange at hs ⊢
  rw [h1, h2, h3]
  exact ⟨hs.1, hn, hs.2.2⟩

theorem frameInRange_updateAnimation (cfg : Config) (s : Player) (delta : Rat)
    (hs : frameInRange s) : frameInRange (updateAnimation cfg s delta) := by
  unfold updateAnimation
  simp only []
  split
  · split
    · split
      · apply frameInRange_congr _ (changeAnimation
          { s with frameCounter := 0, currentFrame := animStart s.currentAnimation } s.nextAnim) rfl
        apply frameInRange_changeAnimation _ _ hs.2.1
        exact ⟨hs.1, hs.2.1, le_rfl, animStart_le_animEnd _⟩
      · exact ⟨hs.1, hs.2.1, le_rfl, animStart_le_animEnd _⟩
    · next h =>
      have h' : s.currentFrame + 1 ≤ animEnd s.currentAnimation := by simpa using h
      exact ⟨hs.1, hs.2.1, le_trans hs.2.2.1 (Nat.le_succ _), h'⟩
  · exact hs

theorem anim_move (s : Player) (dir : Int) : (move s dir).anim = s.anim := by
  unfold move
  repeat' split
  all_goals rfl

theorem anim_tickInvincible (s : Player) (delta : Rat) :
    (tickInvincible s delta).anim = s.anim := by
  unfold tickInvincible
  simp only []
  repeat' split
  all_goals rfl

theorem anim_tickJump (s : Player) (delta : Rat) : (tickJump s delta).anim = s.anim := by
  unfold tickJump
  repeat' split
  all_goals rfl

theorem anim_tickAttack (s : Player) (delta : Rat) : (tickAttack s delta).anim = s.anim := by
  unfold tickAttack
  repeat' split
  all_goals rfl

theorem anim_tickHorizontal (cfg : Config) (map : List Rectangle) (s : Player) (delta : Rat) :
    (tickHorizontal cfg map s delta).anim = s.anim := by
  unfold tickHorizontal
  simp only []
  repeat' split
  all_goals rfl

theorem anim_tickVertical (cfg : Config) (map : List Rectangle) (s : Player) (delta : Rat) :
    (tickVertical cfg map s delta).anim = s.anim := by
  unfold tickVertical updateYVelocityIfHittingCeiling
  simp only []
  repeat' split
  all_goals rfl

theorem anim_tickRecoil (cfg : Config) (map : List Rectangle) (s : Player) (delta : Rat) :
    (tickRecoil cfg map s delta).anim = s.anim := by
  unfold tickRecoil
  simp only []
  repeat' split
  all_goals rfl

theorem anim_tickWallAndFlags (map : List Rectangle) (s : Player) :
    (tickWallAndFlags map s).anim = s.anim := by
  unfold tickWallAndFlags updateCanJumpIfHittingWall
  simp only []
  repeat' split
  all_goals rfl

theorem frameInRange_tickAnimationState (cfg : Config) (map : List Rectangle) (s : Player)
    (hids : ∀ a ∈ cfg.animationIds, a < animationsTable.length) (hs : frameInRange s) :
    frameInRange (tickAnimationState cfg map s) := by
  have hs1 : frameInRange { s with onGround := detectOnGround map s } := hs
  have hc : ∀ a ∈ cfg.animationIds,
      frameInRange (changeAnimation { s with onGround := detectOnGround map s } a) :=
    fun a ha => frameInRange_changeAnimation _ a (hids a ha) hs1
  unfold tickAnimationState
  simp only []
  repeat' split
  all_goals first
    | exact hs
    | exact hc _ (by simp [Config.animationIds])

theorem frameInRange_jump (cfg : Config) (s : Player)
    (hids : ∀ a ∈ cfg.animationIds, a < animationsTable.length) (hs : frameInRange s) :
    frameInRange (jump cfg s) := by
  have hs1 : frameInRange { s with nextAnim := s.currentAnimation } :=
    ⟨hs.1, hs.1, hs.2.2⟩
  have hc : ∀ a ∈ cfg.animationIds,
      frameInRange (changeAnimation { s with nextAnim := s.currentAnimation } a) :=
    fun a ha => frameInRange_changeAnimation _ a (hids a ha) hs1
  unfold jump
  simp only []
  repeat' split
  all_goals first
    | exact hs
    | exact hc _ (by simp [Config.animationIds])

theorem frameInRange_roll (cfg : Config) (s : Player)
    (hids : ∀ a ∈ cfg.animationIds, a < animationsTable.length) (hs : frameInRange s) :
    frameInRange (roll cfg s) := by
  have hc : ∀ a ∈ cfg.animationIds, ∀ n ∈ cfg.animationIds, ∀ t : Player,
      t.currentAnimation
        = (changeAnimation { s with rollCoolDown := cfg.ROLL_TIME, rolling := true } a).currentAnimation →
      t.currentFrame
        = (changeAnimation { s with rollCoolDown := cfg.ROLL_TIME, rolling := true } a).currentFrame →
      t.nextAnim = n → frameInRange t :=
    fun a ha n hn t h1 h2 h3 =>
      frameInRange_nextAnim _ t n (hids n hn) h1 h2 h3
        (frameInRange_changeAnimation _ a (hids a ha) hs)
  unfold roll
  simp only []
  split
  · exact hs
  · cases hf : s.faceRight
    · exact hc cfg.ROLL_LEFT (by simp [Config.animationIds]) cfg.IDLE_LEFT
        (by simp [Config.animationIds]) _ (by simp [hf]) (by simp [hf]) (by simp [hf])
    · exact hc cfg.ROLL_RIGHT (by simp [Config.animationIds]) cfg.IDLE_RIGHT
        (by simp [Config.animationIds]) _ (by simp [hf]) (by simp [hf]) (by simp [hf])

theorem frameInRange_attack (cfg : Config) (s : Player)
    (hids : ∀ a ∈ cfg.animationIds, a < animationsTable.length) (hs : frameInRange s) :
    frameInRange (attack cfg s).2 := by
  have hc : ∀ a ∈ cfg.animationIds, ∀ n ∈ cfg.animationIds, ∀ t : Player,
      t.currentAnimation
        = (changeAnimation
            { s with attackCoolDown := cfg.ATTACK_TIME, attacking := true } a).currentAnimation →
      t.currentFrame
        = (changeAnimation
            { s with attackCoolDown := cfg.ATTACK_TIME, attacking := true } a).currentFrame →
      t.nextAnim = n → frameInRange t :=
    fun a ha n hn t h1 h2 h3 =>
      frameInRange_nextAnim _ t n (hids n hn) h1 h2 h3
        (frameInRange_changeAnimation _ a (hids a ha) hs)
  unfold attack
  simp only []
  split
  · exact hs
  · cases hf : s.faceRight
    · exact hc cfg.ATTACK_LEFT (by simp [Config.animationIds]) cfg.IDLE_LEFT
        (by simp [Config.animationIds]) _ (by simp [hf]) (by simp [hf]) (by simp [hf])
    · exact hc cfg.ATTACK_RIGHT (by simp [Config.animationIds]) cfg.IDLE_RIGHT
        (by simp [Config.animationIds]) _ (by simp [hf]) (by simp [hf]) (by simp [hf])

theorem frameInRange_takeDamage (cfg : Config) (s : Player) (dmg : Int) (right : Bool)
    (hids : ∀ a ∈ cfg.animationIds, a < animationsTable.length) (hs : frameInRange s) :
    frameInRange (takeDamage cfg s dmg right) := by
  have hc : ∀ a ∈ cfg.animationIds, ∀ t : Player,
      t.currentAnimation
        = (changeAnimation
            { s with health := s.health - dmg, recoilTimer := cfg.PLAYER_RECOIL_BAR,
                     recoilFaceRight := right, DEAD := true } a).currentAnimation →
      t.currentFrame
        = (changeAnimation
            { s with health := s.health - dmg, recoilTimer := cfg.PLAYER_RECOIL_BAR,
                     recoilFaceRight := right, DEAD := true } a).currentFrame →
      t.nextAnim = cfg.DEATH_IDLE → frameInRange t :=
    fun a ha t h1 h2 h3 =>
      frameInRange_nextAnim _ t cfg.DEATH_IDLE (hids _ (by simp [Config.animationIds])) h1 h2 h3
        (frameInRange_changeAnimation _ a (hids a ha) hs)
  unfold takeDamage
  simp only []
  split
  · split
    · cases hf : s.faceRight
      · exact hc cfg.DEATH_LEFT (by simp [Config.animationIds]) _ (by simp [hf]) (by simp [hf])
          (by simp)
      · exact hc cfg.DEATH_RIGHT (by simp [Config.animationIds]) _ (by simp [hf]) (by simp [hf])
          (by simp)
    · exact hs
  · exact hs

theorem frameInRange_update (cfg : Config) (map : List Rectangle) (s : Player) (delta : Rat)
    (hids : ∀ a ∈ cfg.animationIds, a < animationsTable.length) (hs : frameInRange s) :
    frameInRange (update cfg map s delta) := by
  unfold update
  simp only []
  generalize toFloat delta = d
  have h6 : frameInRange (tickRecoil cfg map (tickVertical cfg map (tickHorizontal cfg map
      (tickAttack (tickJump (tickInvincible s d) d) d) d) d) d) := by
    apply frameInRange_congr s _ _ hs
    rw [anim_tickRecoil, anim_tickVertical, anim_tickHorizontal, anim_tickAttack, anim_tickJump,
      anim_tickInvincible]
  have h7 := frameInRange_tickAnimationState cfg map _ hids h6
  have h8 := frameInRange_congr _ _ (anim_tickWallAndFlags map _) h7
  have h9 : frameInRange (tickEffects cfg (tickWallAndFlags map (tickAnimationState cfg map
      (tickRecoil cfg map (tickVertical cfg map (tickHorizontal cfg map
      (tickAttack (tickJump (tickInvincible s d) d) d) d) d) d))) d) :=
    h8
  exact frameInRange_updateAnimation cfg _ d h9

theorem step_frameInRange (cfg : Config) (map : List Rectangle) (s : Player) (c : Call)
    (hids : ∀ a ∈ cfg.animationIds, a < animationsTable.length) (hs : frameInRange s) :
    frameInRange (step cfg map s c) := by
  cases c with
  | move dir => exact frameInRange_congr s _ (anim_move s dir) hs
  | jump => exact frameInRange_jump cfg s hids hs
  | roll => exact frameInRange_roll cfg s hids hs
  | attack => exact frameInRange_attack cfg s hids hs
  | takeDamage dmg right => exact frameInRange_takeDamage cfg s dmg right hids hs
  | update delta => exact frameInRange_update cfg map s delta hids hs

theorem run_frameInRange (cfg : Config) (map : List Rectangle)
    (hids : ∀ a ∈ cfg.animationIds, a < animationsTable.length) (calls : List Call) :
    ∀ s : Player, frameInRange s → frameInRange (run cfg map s calls) := by
  induction calls with
  | nil => intro s h; exact h
  | cons c cs ih => intro s h; exact ih _ (step_frameInRange cfg map s c hids h)

/-! ## The sequencer in isolation -/

theorem updateAnimation_nextAnim (cfg : Config) (s : Player) (delta : Rat) :
    (updateAnimation cfg s delta).nextAnim = s.nextAnim := by
  unfold updateAnimation
  simp only []
  repeat' split
  all_goals first
    | rfl
    | exact changeAnimation_nextAnim _ _

theorem updateAnimation_wait (cfg : Config) (s : Player) (delta : Rat)
    (h : ¬ s.frameCounter > cfg.ANIMATION_INTERVAL) :
    (updateAnimation cfg s delta).anim = s.anim ∧
      (updateAnimation cfg s delta).frameCounter = s.frameCounter + 1 := by
  unfold updateAnimation
  rw [if_neg h]
  exact ⟨rfl, rfl⟩

theorem updateAnimation_step (cfg : Config) (s : Player) (delta : Rat)
    (h : s.frameCounter > cfg.ANIMATION_INTERVAL)
    (hlt : s.currentFrame + 1 ≤ animEnd s.currentAnimation) :
    (updateAnimation cfg s delta).currentAnimation = s.currentAnimation ∧
      (updateAnimation cfg s delta).currentFrame = s.currentFrame + 1 := by
  unfold updateAnimation
  rw [if_pos h]
  simp only []
  rw [if_neg (by omega)]
  exact ⟨rfl, rfl⟩

theorem updateAnimation_wrap_loop (cfg : Config) (s : Player) (delta : Rat)
    (h : s.frameCounter > cfg.ANIMATION_INTERVAL)
    (hend : animEnd s.currentAnimation < s.currentFrame + 1)
    (hloop : statePlayOnce s.currentAnimation = false) :
    (updateAnimation cfg s delta).currentAnimation = s.currentAnimation ∧
      (updateAnimation cfg s delta).currentFrame = animStart s.currentAnimation := by
  unfold updateAnimation
  rw [if_pos h]
  simp only []
  rw [if_pos (by omega)]
  simp only [hloop, Bool.false_eq_true, if_false]
  exact ⟨trivial, trivial⟩

theorem updateAnimation_wrap_once (cfg : Config) (s : Player) (delta : Rat)
    (h : s.frameCounter > cfg.ANIMATION_INTERVAL)
    (hend : animEnd s.currentAnimation < s.currentFrame + 1)
    (honce : statePlayOnce s.currentAnimation = true)
    (hne : s.nextAnim ≠ s.currentAnimation) :
    (updateAnimation cfg s delta).currentAnimation = s.nextAnim ∧
      (updateAnimation cfg s delta).currentFrame = animStart s.nextAnim := by
  unfold updateAnimation
  rw [if_pos h]
  simp only []
  rw [if_pos (by omega)]
  simp only [honce, if_true]
  constructor
  · exact changeAnimation_currentAnimation _ _
  · show (changeAnimation _ _).currentFrame = _
    rw [changeAnimation_currentFrame, if_neg]
    exact hne

theorem runAnimation_no_advance (cfg : Config) :
    ∀ (ds : List Rat) (s : Player), frameAdvances cfg s ds = 0 →
      (runAnimation cfg s ds).anim = s.anim := by
  intro ds
  induction ds with
  | nil => intro s _; rfl
  | cons d ds ih =>
    intro s h
    simp only [frameAdvances] at h
    have hw : ¬ s.frameCounter > cfg.ANIMATION_INTERVAL := by
      intro hc
      rw [if_pos hc] at h
      omega
    have hk : frameAdvances cfg (updateAnimation cfg s d) ds = 0 := by omega
    show (runAnimation cfg (updateAnimation cfg s d) ds).anim = s.anim
    rw [ih _ hk]
    exact (updateAnimation_wait cfg s d hw).1

theorem runAnimation_loop (cfg : Config) (a : Nat) (hloop : statePlayOnce a = false) :
    ∀ (ds : List Rat) (s : Player) (j : Nat), s.currentAnimation = a →
      s.currentFrame = animStart a + j → j < animEnd a - animStart a + 1 →
      (runAnimation cfg s ds).currentAnimation = a ∧
        (runAnimation cfg s ds).currentFrame
          = animStart a + (j + frameAdvances cfg s ds) % (animEnd a - animStart a + 1) := by
  have hle := animStart_le_animEnd a
  intro ds
  induction ds with
  | nil =>
    intro s j h1 h2 h3
    refine ⟨h1, ?_⟩
    show s.currentFrame = _
    simp only [frameAdvances, Nat.add_zero, Nat.mod_eq_of_lt h3]
    exact h2
  | cons d ds ih =>
    intro s j h1 h2 h3
    show (runAnimation cfg (updateAnimation cfg s d) ds).currentAnimation = a ∧
      (runAnimation cfg (updateAnimation cfg s d) ds).currentFrame = _
    simp only [frameAdvances]
    by_cases hadv : s.frameCounter > cfg.ANIMATION_INTERVAL
    · rw [if_pos hadv]
      by_cases hj : j + 1 < animEnd a - animStart a + 1
      · obtain ⟨e1, e2⟩ := updateAnimation_step cfg s d hadv (by rw [h1, h2]; omega)
        have := ih (updateAnimation cfg s d) (j + 1) (e1.trans h1) (by rw [e2, h2]; omega) hj
        rw [show j + (1 + frameAdvances cfg (updateAnimation cfg s d) ds)
          = j + 1 + frameAdvances cfg (updateAnimation cfg s d) ds by omega]
        exact this
      · obtain ⟨e1, e2⟩ := updateAnimation_wrap_loop cfg s d hadv (by rw [h1, h2]; omega)
          (by rw [h1]; exact hloop)
        have := ih (updateAnimation cfg s d) 0 (e1.trans h1) (by rw [e2, h1]; rfl) (by omega)
        rw [show j + (1 + frameAdvances cfg (updateAnimation cfg s d) ds)
          = (animEnd a - animStart a + 1) + (0 + frameAdvances cfg (updateAnimation cfg s d) ds)
          by omega, Nat.add_mod_left]
        exact this
    · rw [if_neg hadv]
      obtain ⟨e, -⟩ := updateAnimation_wait cfg s d hadv
      simp only [Player.anim, Prod.mk.injEq] at e
      have := ih (updateAnimation cfg s d) j (e.1.trans h1) (e.2.1.trans h2) h3
      rw [Nat.zero_add]
      exact this

theorem runAnimation_once (cfg : Config) (a n : Nat) (honce : statePlayOnce a = true)
    (hne : n ≠ a) :
    ∀ (ds : List Rat) (s : Player) (j : Nat), s.currentAnimation = a → s.nextAnim = n →
      s.currentFrame = animStart a + j → j < animEnd a - animStart a + 1 →
      (j + frameAdvances cfg s ds < animEnd a - animStart a + 1 →
        (runAnimation cfg s ds).currentAnimation = a ∧
        (runAnimation cfg s ds).currentFrame = animStart a + (j + frameAdvances cfg s ds)) ∧
      (j + frameAdvances cfg s ds = animEnd a - animStart a + 1 →
        (runAnimation cfg s ds).currentAnimation = n ∧
        (runAnimation cfg s ds).currentFrame = animStart n) := by
  have hle := animStart_le_animEnd a
  intro ds
  induction ds with
  | nil =>
    intro s j h1 _ h3 h4
    simp only [frameAdvances, Nat.add_zero]
    exact ⟨fun _ => ⟨h1, h3⟩, fun h => by omega⟩
  | cons d ds ih =>
    intro s j h1 h2 h3 h4
    show (_ → (runAnimation cfg (updateAnimation cfg s d) ds).currentAnimation = a ∧
        (runAnimation cfg (updateAnimation cfg s d) ds).currentFrame = _) ∧
      (_ → (runAnimation cfg (updateAnimation cfg s d) ds).currentAnimation = n ∧
        (runAnimation cfg (updateAnimation cfg s d) ds).currentFrame = _)
    simp only [frameAdvances]
    have hn' := (updateAnimation_nextAnim cfg s d).trans h2
    by_cases hadv : s.frameCounter > cfg.ANIMATION_INTERVAL
    · rw [if_pos hadv]
      by_cases hj : j + 1 < animEnd a - animStart a + 1
      · obtain ⟨e1, e2⟩ := updateAnimation_step cfg s d hadv (by rw [h1, h3]; omega)
        have := ih (updateAnimation cfg s d) (j + 1) (e1.trans h1) hn' (by rw [e2, h3]; omega) hj
        rw [show j + (1 + frameAdvances cfg (updateAnimation cfg s d) ds)
          = j + 1 + frameAdvances cfg (updateAnimation cfg s d) ds by omega]
        exact this
      · obtain ⟨e1, e2⟩ := updateAnimation_wrap_once cfg s d hadv (by rw [h1, h3]; omega)
          (by rw [h1]; exact honce) (by rw [h1, h2]; exact hne)
        constructor
        · intro h; omega
        · intro h
          have hk : frameAdvances cfg (updateAnimation cfg s d) ds = 0 := by omega
          have e := runAnimation_no_advance cfg ds _ hk
          simp only [Player.anim, Prod.mk.injEq] at e
          exact ⟨e.1.trans (e1.trans h2), e.2.1.trans (e2.trans (by rw [h2]))⟩
    · rw [if_neg hadv]
      obtain ⟨e, -⟩ := updateAnimation_wait cfg s d hadv
      simp only [Player.anim, Prod.mk.injEq] at e
      have := ih (updateAnimation cfg s d) j (e.1.trans h1) hn' (e.2.1.trans h3) h4
      rw [Nat.zero_add]
      exact this

theorem runAnimation_append (cfg : Config) :
    ∀ (xs ys : List Rat) (s : Player),
      runAnimation cfg s (xs ++ ys) = runAnimation cfg (runAnimation cfg s xs) ys := by
  intro xs
  induction xs with
  | nil => intro ys s; rfl
  | cons d xs ih => intro ys s; exact ih ys _

theorem frameAdvances_append (cfg : Config) :
    ∀ (xs ys : List Rat) (s : Player),
      frameAdvances cfg s (xs ++ ys)
        = frameAdvances cfg s xs + frameAdvances cfg (runAnimation cfg s xs) ys := by
  intro xs
  induction xs with
  | nil => intro ys s; simp [frameAdvances, runAnimation]
  | cons d xs ih =>
    intro ys s
    show _ + frameAdvances cfg (updateAnimation cfg s d) (xs ++ ys) = _
    rw [ih ys _]
    simp only [frameAdvances, runAnimation]
    omega

theorem next_advance (cfg : Config) :
    ∀ (m : Nat) (s : Player), (cfg.ANIMATION_INTERVAL + 1 - s.frameCounter).toNat ≤ m →
      ∃ ds : List Rat, frameAdvances cfg s ds = 1 := by
  intro m
  induction m with
  | zero =>
    intro s h
    refine ⟨[0], ?_⟩
    simp only [frameAdvances]
    rw [if_pos (by omega)]
  | succ m ih =>
    intro s h
    by_cases hadv : s.frameCounter > cfg.ANIMATION_INTERVAL
    · refine ⟨[0], ?_⟩
      simp only [frameAdvances]
      rw [if_pos hadv]
    · obtain ⟨-, hc⟩ := updateAnimation_wait cfg s 0 hadv
      obtain ⟨ds, hds⟩ := ih (updateAnimation cfg s 0) (by rw [hc]; omega)
      refine ⟨0 :: ds, ?_⟩
      simp only [frameAdvances]
      rw [if_neg hadv, hds]

/-- Frame advances keep coming: every number of advances is reached by some
sequence of calls. -/
theorem frameAdvances_reaches (cfg : Config) :
    ∀ (k : Nat) (s : Player), ∃ ds : List Rat, frameAdvances cfg s ds = k := by
  intro k
  induction k with
  | zero => intro s; exact ⟨[], rfl⟩
  | succ k ih =>
    intro s
    obtain ⟨ds1, h1⟩ := next_advance cfg _ s le_rfl
    obtain ⟨ds2, h2⟩ := ih (runAnimation cfg s ds1)
    exact ⟨ds1 ++ ds2, by rw [frameAdvances_append, h1, h2]; omega⟩

/-! ## Settled properties -/

/-- Claim C1, evaluated where it fails.  In `corridorMap` the player stands
clear of every obstacle; one `update(100)` with the move-right intent steps up
over the bump, which lifts the box into the ceiling (already passed in map
order), and the vertical move that follows backs off downwards from the
ceiling and the bump: the tick ends with the box at `(30, 64)`, inside the
floor. -/
theorem update_ends_inside_obstacle :
    clearOf corridorMap corridorPlayer.collisionBox ∧
      (moveHelp sampleConfig corridorMap corridorPlayer Direction.Right 30).collisionBox
        = ⟨30, -1, 44, 64⟩ ∧
      isColliding ⟨30, -1, 44, 64⟩ ⟨-100, -10, 1000, 10⟩ = true ∧
      (update sampleConfig corridorMap corridorPlayer 100).collisionBox = ⟨30, 64, 44, 64⟩ ∧
      isColliding ⟨30, 64, 44, 64⟩ ⟨-100, 64, 1000, 10⟩ = true ∧
      ¬ clearOf corridorMap (update sampleConfig corridorMap corridorPlayer 100).collisionBox := by
  decide!

/-- Claim C2. While an action is active (`attacking` or `rolling` is set),
`attack()` returns `false` and `roll()` returns, and each leaves the whole
state as it was: the timers, the flags, the animation fields, the effects and
the list of messages sent to the attack messager. -/
theorem attack_roll_noop_while_active (cfg : Config) (s : Player)
    (h : s.attacking = true ∨ s.rolling = true) :
    attack cfg s = (false, s) ∧ roll cfg s = s := by
  have hc : (s.attacking || s.rolling) = true := by
    rcases h with h | h <;> simp [h]
  constructor
  · unfold attack
    rw [if_pos hc]
  · unfold roll
    rw [if_pos hc]

theorem attack_roll_noop_while_active_witness :
    (attack sampleConfig samplePlayer).2.attacking = true ∧
      attack sampleConfig (attack sampleConfig samplePlayer).2
        = (false, (attack sampleConfig samplePlayer).2) ∧
      roll sampleConfig (attack sampleConfig samplePlayer).2
        = (attack sampleConfig samplePlayer).2 :=
  ⟨rfl, attack_roll_noop_while_active sampleConfig (attack sampleConfig samplePlayer).2
    (Or.inl rfl)⟩

/-- Claim C3. In every state reached from the constructor's state by a finite
sequence of `move`, `jump`, `roll`, `attack`, `takeDamage` and `update` calls,
the flags `attacking` and `rolling` are not both set.  (It holds for every
`delta`, so in particular for `delta >= 0`.) -/
theorem attacking_rolling_never_both (cfg : Config) (map : List Rectangle) (u : Unset)
    (x y health : Int) (calls : List Call) :
    ¬((run cfg map (Player.init cfg u x y health) calls).attacking = true ∧
      (run cfg map (Player.init cfg u x y health) calls).rolling = true) :=
  run_exclusive cfg map calls _ (by simp [Player.init])

/-- Claim C5, the claim as stated fails.  A player killed by `takeDamage`
(`DEAD` set, health `0`) can still attack: `attack()` returns `true`, sets
`attacking`, starts `attackCoolDown` and sends a message; `roll()` starts a
roll; once the invincibility has run out `takeDamage(5)` lowers the health to
`-5`; after a tick on the ground `jump()` starts the jump cooldown and sets
`yVelocity`; and the first `update` replaces the death animation by
`IDLE_RIGHT`. -/
theorem death_does_not_gate :
    deadPlayer.DEAD = true ∧ deadPlayer.health = 0 ∧
      deadPlayer.currentAnimation = sampleConfig.DEATH_RIGHT ∧
      (attack sampleConfig deadPlayer).1 = true ∧
      deadPlayer.attacking = false ∧ (attack sampleConfig deadPlayer).2.attacking = true ∧
      deadPlayer.attackCoolDown = 0 ∧ (attack sampleConfig deadPlayer).2.attackCoolDown = 300 ∧
      deadPlayer.messages = [] ∧ (attack sampleConfig deadPlayer).2.messages.length = 1 ∧
      (roll sampleConfig deadPlayer).rolling = true ∧
      (takeDamage sampleConfig (update sampleConfig ledgeMap deadPlayer 600) 5 true).health = -5 ∧
      (update sampleConfig ledgeMap deadPlayer 600).DEAD = true ∧
      (update sampleConfig ledgeMap deadPlayer 600).jumpTimer = 0 ∧
      (jump sampleConfig (update sampleConfig ledgeMap deadPlayer 600)).jumpTimer = 300 ∧
      (update sampleConfig ledgeMap deadPlayer 600).yVelocity = -20 ∧
      (jump sampleConfig (update sampleConfig ledgeMap deadPlayer 600)).yVelocity = 12 ∧
      (update sampleConfig ledgeMap deadPlayer 100).currentAnimation = sampleConfig.IDLE_RIGHT ∧
      sampleConfig.IDLE_RIGHT ≠ sampleConfig.DEATH_RIGHT ∧
      sampleConfig.IDLE_RIGHT ≠ sampleConfig.DEATH_LEFT ∧
      sampleConfig.IDLE_RIGHT ≠ sampleConfig.DEATH_IDLE := by
  decide!

/-- Claim C5, as amended.  Death is recorded for good but gates nothing.  From a
state with `DEAD` set and `health <= 0`, after every sequence of `move`, `jump`,
`roll`, `attack`, `takeDamage` (with `dmg >= 0`) and `update` calls `DEAD` is
still set and the health is still `<= 0`.  And none of `takeDamage`, `attack`,
`roll` and `jump` reads `DEAD`: for every state `t` and all arguments, the call
made on `t` with `DEAD` set ends in the state the same call made on `t` ends
in, with `DEAD` set, and `attack` returns the same value. -/
theorem dead_stays_dead (cfg : Config) (map : List Rectangle) (s : Player)
    (calls : List Call) (hdead : s.DEAD = true) (hhealth : s.health ≤ 0)
    (hcalls : ∀ c ∈ calls, c.damageNonneg) :
    ((run cfg map s calls).DEAD = true ∧ (run cfg map s calls).health ≤ 0) ∧
      ∀ (t : Player) (dmg : Int) (right : Bool),
        takeDamage cfg { t with DEAD := true } dmg right
            = { takeDamage cfg t dmg right with DEAD := true } ∧
          attack cfg { t with DEAD := true }
            = ((attack cfg t).1, { (attack cfg t).2 with DEAD := true }) ∧
          roll cfg { t with DEAD := true } = { roll cfg t with DEAD := true } ∧
          jump cfg { t with DEAD := true } = { jump cfg t with DEAD := true } := by
  refine ⟨⟨run_DEAD cfg map calls s hdead,
    le_trans (run_health_le cfg map calls s hcalls) hhealth⟩, ?_⟩
  intro t dmg right
  refine ⟨?_, ?_, ?_, ?_⟩
  · unfold takeDamage changeAnimation
    simp only []
    repeat' split
    all_goals rfl
  · unfold attack changeAnimation
    simp only []
    repeat' split
    all_goals rfl
  · unfold roll changeAnimation
    simp only []
    repeat' split
    all_goals rfl
  · unfold jump changeAnimation
    simp only []
    repeat' split
    all_goals rfl

theorem dead_stays_dead_witness :
    ((run sampleConfig ledgeMap deadPlayer
          [Call.attack, Call.update 600, Call.takeDamage 5 true, Call.jump, Call.roll]).DEAD = true ∧
        (run sampleConfig ledgeMap deadPlayer
          [Call.attack, Call.update 600, Call.takeDamage 5 true, Call.jump, Call.roll]).health ≤ 0) ∧
      attack sampleConfig { samplePlayer with DEAD := true }
        = ((attack sampleConfig samplePlayer).1,
            { (attack sampleConfig samplePlayer).2 with DEAD := true }) :=
  have h := dead_stays_dead sampleConfig ledgeMap deadPlayer
    [Call.attack, Call.update 600, Call.takeDamage 5 true, Call.jump, Call.roll]
    (by decide!) (by decide!) (by
      intro c hc
      simp only [List.mem_cons, List.mem_singleton, List.not_mem_nil, or_false] at hc
      rcases hc with rfl | rfl | rfl | rfl | rfl <;> simp [Call.damageNonneg])
  ⟨h.1, (h.2 samplePlayer 0 true).2.1⟩

/-- Claim C6, the claim as stated fails.  A player constructed with health `1`
(and `invincibleTimer == 0`) that takes `5` points of damage has health `-4`,
and `DEAD` set. -/
theorem health_goes_negative :
    (Player.init sampleConfig sampleUnset 0 0 1).invincibleTimer = 0 ∧
      (run sampleConfig [] (Player.init sampleConfig sampleUnset 0 0 1)
        [Call.takeDamage 5 true]).health = -4 ∧
      (run sampleConfig [] (Player.init sampleConfig sampleUnset 0 0 1)
        [Call.takeDamage 5 true]).DEAD = true ∧
      ¬ 0 ≤ (run sampleConfig [] (Player.init sampleConfig sampleUnset 0 0 1)
        [Call.takeDamage 5 true]).health := by
  decide!

/-- Claim C6, as amended.  Health is never negative while the player is alive:
in every state reached from a player constructed with health `h >= 0` by a
sequence of `takeDamage(dmg, dir)` (for every `dmg`, so in particular for
`dmg >= 0`), `move`, `jump`, `roll`, `attack` and `update` calls, `health >= 0`
or `DEAD` is set. -/
theorem health_nonneg_or_dead (cfg : Config) (map : List Rectangle) (u : Unset)
    (x y h : Int) (calls : List Call) (hh : 0 ≤ h) :
    0 ≤ (run cfg map (Player.init cfg u x y h) calls).health ∨
      (run cfg map (Player.init cfg u x y h) calls).DEAD = true :=
  run_alive cfg map calls (Player.init cfg u x y h) (Or.inl hh)

theorem health_nonneg_or_dead_witness :
    0 ≤ (run sampleConfig ledgeMap (Player.init sampleConfig sampleUnset 0 0 3)
        [Call.takeDamage 2 true, Call.update 600, Call.takeDamage 5 false]).health ∨
      (run sampleConfig ledgeMap (Player.init sampleConfig sampleUnset 0 0 3)
        [Call.takeDamage 2 true, Call.update 600, Call.takeDamage 5 false]).DEAD = true :=
  health_nonneg_or_dead sampleConfig ledgeMap sampleUnset 0 0 3
    [Call.takeDamage 2 true, Call.update 600, Call.takeDamage 5 false] (by decide)

/-- Claim C7. `takeDamage(dmg, right)` is gated by invincibility: with
`invincibleTimer > 0` the whole state is left as it was; with
`invincibleTimer == 0` the health becomes `health - dmg`, `recoilTimer` becomes
`PLAYER_RECOIL_BAR`, `recoilFaceRight` becomes `right`, `invincibleTimer`
becomes `INVINCIBLE_TIME`, and `DEAD` is set, with the animation
`DEATH_RIGHT`/`DEATH_LEFT` by facing and `nextAnim = DEATH_IDLE`, when the new
health is `<= 0`, and only then: otherwise `DEAD` and the animation fields keep
their values. -/
theorem takeDamage_gated_by_invincibility (cfg : Config) (s : Player) (dmg : Int)
    (right : Bool) :
    (0 < s.invincibleTimer → takeDamage cfg s dmg right = s) ∧
      (s.invincibleTimer = 0 →
        (takeDamage cfg s dmg right).health = s.health - dmg ∧
        (takeDamage cfg s dmg right).recoilTimer = cfg.PLAYER_RECOIL_BAR ∧
        (takeDamage cfg s dmg right).recoilFaceRight = right ∧
        (takeDamage cfg s dmg right).invincibleTimer = cfg.INVINCIBLE_TIME ∧
        (s.health - dmg ≤ 0 →
          (takeDamage cfg s dmg right).DEAD = true ∧
          (takeDamage cfg s dmg right).currentAnimation
            = (if s.faceRight then cfg.DEATH_RIGHT else cfg.DEATH_LEFT) ∧
          (takeDamage cfg s dmg right).nextAnim = cfg.DEATH_IDLE) ∧
        (¬ s.health - dmg ≤ 0 →
          (takeDamage cfg s dmg right).DEAD = s.DEAD ∧
          (takeDamage cfg s dmg right).currentAnimation = s.currentAnimation ∧
          (takeDamage cfg s dmg right).currentFrame = s.currentFrame ∧
          (takeDamage cfg s dmg right).nextAnim = s.nextAnim)) := by
  constructor
  · intro h
    unfold takeDamage
    rw [if_neg (by omega)]
  · intro h
    unfold takeDamage
    rw [if_pos h]
    by_cases hd : s.health - dmg ≤ 0 <;> simp [hd]

theorem takeDamage_gated_by_invincibility_witness :
    takeDamage sampleConfig busyPlayer 1 true = busyPlayer ∧
      (takeDamage sampleConfig samplePlayer 3 true).health = 0 ∧
      (takeDamage sampleConfig samplePlayer 3 true).DEAD = true ∧
      (takeDamage sampleConfig samplePlayer 3 true).currentAnimation = 10 ∧
      (takeDamage sampleConfig samplePlayer 3 true).nextAnim = 12 ∧
      (takeDamage sampleConfig samplePlayer 1 true).DEAD = false :=
  ⟨(takeDamage_gated_by_invincibility sampleConfig busyPlayer 1 true).1 (by decide),
    ((takeDamage_gated_by_invincibility sampleConfig samplePlayer 3 true).2 rfl).1,
    (((takeDamage_gated_by_invincibility sampleConfig samplePlayer 3 true).2 rfl).2.2.2.2.1
      (by decide)).1,
    (((takeDamage_gated_by_invincibility sampleConfig samplePlayer 3 true).2 rfl).2.2.2.2.1
      (by decide)).2.1,
    (((takeDamage_gated_by_invincibility sampleConfig samplePlayer 3 true).2 rfl).2.2.2.2.1
      (by decide)).2.2,
    (((takeDamage_gated_by_invincibility sampleConfig samplePlayer 1 true).2 rfl).2.2.2.2.2
      (by decide)).1⟩

/-- Claim C8. `jump()` is characterised by its guard
`canJump && jumpTimer == 0 && !rolling`: where the guard fails the whole state
is left as it was; where it holds, afterwards `yVelocity == JUMP_HEIGHT`,
`onGround == false`, `canJump == false` and `jumpTimer == JUMP_COOLDOWN`, and
if the player was off the ground `nextAnim` is the former `currentAnimation`
and `currentAnimation` is `WALL_JUMP_RIGHT`/`WALL_JUMP_LEFT` by facing, while
if it was on the ground the animation fields keep their values. -/
theorem jump_characterised_by_guard (cfg : Config) (s : Player) :
    (¬(s.canJump = true ∧ s.jumpTimer = 0 ∧ s.rolling = false) → jump cfg s = s) ∧
      (s.canJump = true ∧ s.jumpTimer = 0 ∧ s.rolling = false →
        (jump cfg s).yVelocity = cfg.JUMP_HEIGHT ∧
        (jump cfg s).onGround = false ∧
        (jump cfg s).canJump = false ∧
        (jump cfg s).jumpTimer = cfg.JUMP_COOLDOWN ∧
        (s.onGround = false →
          (jump cfg s).nextAnim = s.currentAnimation ∧
          (jump cfg s).currentAnimation
            = (if s.faceRight then cfg.WALL_JUMP_RIGHT else cfg.WALL_JUMP_LEFT)) ∧
        (s.onGround = true →
          (jump cfg s).currentAnimation = s.currentAnimation ∧
          (jump cfg s).currentFrame = s.currentFrame ∧
          (jump cfg s).nextAnim = s.nextAnim)) := by
  constructor
  · intro h
    unfold jump
    rw [if_neg]
    simpa using h
  · rintro ⟨h1, h2, h3⟩
    unfold jump
    rw [if_pos (by simp [h1, h2, h3])]
    cases hg : s.onGround <;> simp

theorem jump_characterised_by_guard_witness :
    jump sampleConfig samplePlayer = samplePlayer ∧
      (jump sampleConfig { samplePlayer with canJump := true }).yVelocity = 12 ∧
      (jump sampleConfig { samplePlayer with canJump := true }).jumpTimer = 300 ∧
      (jump sampleConfig { samplePlayer with canJump := true }).currentAnimation = 13 ∧
      (jump sampleConfig { samplePlayer with canJump := true, onGround := true }).currentAnimation
        = 0 :=
  ⟨(jump_characterised_by_guard sampleConfig samplePlayer).1 (by decide),
    ((jump_characterised_by_guard sampleConfig { samplePlayer with canJump := true }).2
      (by decide)).1,
    ((jump_characterised_by_guard sampleConfig { samplePlayer with canJump := true }).2
      (by decide)).2.2.2.1,
    (((jump_characterised_by_guard sampleConfig { samplePlayer with canJump := true }).2
      (by decide)).2.2.2.2.1 rfl).2,
    (((jump_characterised_by_guard sampleConfig
      { samplePlayer with canJump := true, onGround := true }).2
      (by decide)).2.2.2.2.2 rfl).1⟩

/-- Claim C9, evaluated where it fails.  `ledgePlayer` was grounded on the
previous tick and has just walked off the platform: nothing is below its box
and nothing is beside it, yet `canJump` is still set, so `jump()` changes the
state: it sets the jump impulse, starts the jump cooldown and plays the
wall-jump animation, with no wall. -/
theorem airborne_jump_without_wall :
    detectOnGround ledgeMap ledgePlayer = false ∧
      touchesWall ledgeMap ledgePlayer = false ∧
      ledgePlayer.onGround = false ∧ ledgePlayer.canJump = true ∧
      jump sampleConfig ledgePlayer ≠ ledgePlayer ∧
      (jump sampleConfig ledgePlayer).yVelocity = sampleConfig.JUMP_HEIGHT ∧
      (jump sampleConfig ledgePlayer).jumpTimer = sampleConfig.JUMP_COOLDOWN ∧
      (jump sampleConfig ledgePlayer).currentAnimation = sampleConfig.WALL_JUMP_RIGHT := by
  decide!

/-- Claim C10. With `attacking == false` and `rolling == false`, `attack()`
returns `true`, sets `attacking` and `attackCoolDown = ATTACK_TIME`, sets
`currentAnimation` to `ATTACK_RIGHT`/`ATTACK_LEFT` and `nextAnim` to
`IDLE_RIGHT`/`IDLE_LEFT` by facing, appends exactly one effect, and sends
exactly one message with target `ENEMY`, damage `1`, `recoilRight == faceRight`
and the rectangle `(ex, position.y - 36, 100, 100)`, where `ex` is `position.x`
facing right and `position.x - 36` facing left; `rolling`, `rollCoolDown`,
`jumpTimer`, `invincibleTimer`, `health`, `position` and `collisionBox` keep
their values. -/
theorem attack_success (cfg : Config) (s : Player)
    (ha : s.attacking = false) (hr : s.rolling = false) :
    (attack cfg s).1 = true ∧
      (attack cfg s).2.attacking = true ∧
      (attack cfg s).2.attackCoolDown = cfg.ATTACK_TIME ∧
      (attack cfg s).2.currentAnimation
        = (if s.faceRight then cfg.ATTACK_RIGHT else cfg.ATTACK_LEFT) ∧
      (attack cfg s).2.nextAnim = (if s.faceRight then cfg.IDLE_RIGHT else cfg.IDLE_LEFT) ∧
      (∃ e : Effect, (attack cfg s).2.effects = s.effects ++ [e] ∧
        e.x = (if s.faceRight then s.position.x else s.position.x - 36) ∧
        e.y = s.position.y - 36) ∧
      (attack cfg s).2.messages = s.messages ++
        [{ target := Target.ENEMY, damage := 1,
           collisionBox :=
             ⟨if s.faceRight then s.position.x else s.position.x - 36, s.position.y - 36,
              100, 100⟩,
           recoilRight := s.faceRight }] ∧
      (attack cfg s).2.rolling = s.rolling ∧
      (attack cfg s).2.rollCoolDown = s.rollCoolDown ∧
      (attack cfg s).2.jumpTimer = s.jumpTimer ∧
      (attack cfg s).2.invincibleTimer = s.invincibleTimer ∧
      (attack cfg s).2.health = s.health ∧
      (attack cfg s).2.position = s.position ∧
      (attack cfg s).2.collisionBox = s.collisionBox := by
  unfold attack
  rw [if_neg (by simp [ha, hr])]
  simp

theorem attack_success_witness :
    (attack sampleConfig samplePlayer).1 = true ∧
      (attack sampleConfig samplePlayer).2.attackCoolDown = 300 ∧
      (attack sampleConfig samplePlayer).2.messages
        = [{ target := Target.ENEMY, damage := 1, collisionBox := ⟨0, -36, 100, 100⟩,
             recoilRight := true }] :=
  ⟨(attack_success sampleConfig samplePlayer rfl rfl).1,
    (attack_success sampleConfig samplePlayer rfl rfl).2.2.1,
    (attack_success sampleConfig samplePlayer rfl rfl).2.2.2.2.2.2.1⟩

/-- Claim C11. With the fifteen animation ids of `player.h` being entries of
the table of `setupAnimations`, in every state reached from the constructor's
state by `move`, `jump`, `roll`, `attack`, `takeDamage` and `update` calls,
`currentAnimation` is an entry of the table and
`animations[currentAnimation].start <= currentFrame <= animations[currentAnimation].end`. -/
theorem frame_index_in_range (cfg : Config) (map : List Rectangle) (u : Unset)
    (x y health : Int) (calls : List Call)
    (hids : ∀ a ∈ cfg.animationIds, a < animationsTable.length) :
    (run cfg map (Player.init cfg u x y health) calls).currentAnimation
        < animationsTable.length ∧
      animStart (run cfg map (Player.init cfg u x y health) calls).currentAnimation
        ≤ (run cfg map (Player.init cfg u x y health) calls).currentFrame ∧
      (run cfg map (Player.init cfg u x y health) calls).currentFrame
        ≤ animEnd (run cfg map (Player.init cfg u x y health) calls).currentAnimation := by
  have h0 : frameInRange (Player.init cfg u x y health) := by
    refine ⟨?_, ?_, ?_, ?_⟩
    · show (0 : Nat) < animationsTable.length
      decide
    · show cfg.IDLE_RIGHT < animationsTable.length
      exact hids _ (by simp [Config.animationIds])
    · show animStart 0 ≤ 0
      decide
    · show 0 ≤ animEnd 0
      decide
  have h := run_frameInRange cfg map hids calls _ h0
  exact ⟨h.1, h.2.2⟩

theorem frame_index_in_range_witness :
    (run sampleConfig floorMap (Player.init sampleConfig sampleUnset 0 0 3)
        [Call.update 100, Call.attack, Call.update 100, Call.update 100]).currentAnimation
        < animationsTable.length ∧
      animStart (run sampleConfig floorMap (Player.init sampleConfig sampleUnset 0 0 3)
        [Call.update 100, Call.attack, Call.update 100, Call.update 100]).currentAnimation
        ≤ (run sampleConfig floorMap (Player.init sampleConfig sampleUnset 0 0 3)
        [Call.update 100, Call.attack, Call.update 100, Call.update 100]).currentFrame ∧
      (run sampleConfig floorMap (Player.init sampleConfig sampleUnset 0 0 3)
        [Call.update 100, Call.attack, Call.update 100, Call.update 100]).currentFrame
        ≤ animEnd (run sampleConfig floorMap (Player.init sampleConfig sampleUnset 0 0 3)
        [Call.update 100, Call.attack, Call.update 100, Call.update 100]).currentAnimation :=
  frame_index_in_range sampleConfig floorMap sampleUnset 0 0 3
    [Call.update 100, Call.attack, Call.update 100, Call.update 100] (by decide)

/-- Claim C12. The sequencer run in isolation after `changeAnimation(a)` from a
different animation, as a function of the number of frame advances made so
far (every number of advances is reached).  If `statePlayOnce[a]` is false
`currentAnimation` stays `a` and `currentFrame` cycles through `start`,
`start + 1`, ..., `end`, `start`, ... .  If `statePlayOnce[a]` is true and
`nextAnim != a`, `currentFrame` is `start + k` after `k` advances as long as
that is within the range, with `currentAnimation` still `a`, and the advance
after `end` makes `currentAnimation` the `nextAnim`, with `currentFrame` at
its `start`. -/
theorem sequencer_loops_or_plays_once (cfg : Config) (s0 : Player) (a : Nat)
    (hdiff : s0.currentAnimation ≠ a) :
    (∀ k : Nat, ∃ ds : List Rat, frameAdvances cfg (changeAnimation s0 a) ds = k) ∧
      (statePlayOnce a = false → ∀ ds : List Rat,
        (runAnimation cfg (changeAnimation s0 a) ds).currentAnimation = a ∧
        (runAnimation cfg (changeAnimation s0 a) ds).currentFrame
          = animStart a
            + frameAdvances cfg (changeAnimation s0 a) ds % (animEnd a - animStart a + 1)) ∧
      (statePlayOnce a = true → s0.nextAnim ≠ a → ∀ ds : List Rat,
        (frameAdvances cfg (changeAnimation s0 a) ds < animEnd a - animStart a + 1 →
          (runAnimation cfg (changeAnimation s0 a) ds).currentAnimation = a ∧
          (runAnimation cfg (changeAnimation s0 a) ds).currentFrame
            = animStart a + frameAdvances cfg (changeAnimation s0 a) ds) ∧
        (frameAdvances cfg (changeAnimation s0 a) ds = animEnd a - animStart a + 1 →
          (runAnimation cfg (changeAnimation s0 a) ds).currentAnimation = s0.nextAnim ∧
          (runAnimation cfg (changeAnimation s0 a) ds).currentFrame
            = animStart s0.nextAnim)) := by
  have h1 : (changeAnimation s0 a).currentAnimation = a := changeAnimation_currentAnimation _ _
  have h2 : (changeAnimation s0 a).currentFrame = animStart a + 0 := by
    rw [changeAnimation_currentFrame, if_neg (Ne.symm hdiff)]
    rfl
  have h3 : (changeAnimation s0 a).nextAnim = s0.nextAnim := changeAnimation_nextAnim _ _
  refine ⟨fun k => frameAdvances_reaches cfg k _, ?_, ?_⟩
  · intro hloop ds
    have := runAnimation_loop cfg a hloop ds _ 0 h1 h2 (by omega)
    rw [Nat.zero_add] at this
    exact this
  · intro honce hne ds
    have := runAnimation_once cfg a s0.nextAnim honce hne ds _ 0 h1 h3 h2 (by omega)
    simp only [Nat.zero_add] at this
    exact this

theorem sequencer_loops_or_plays_once_witness :
    ((runAnimation sampleConfig (changeAnimation samplePlayer 2)
          (List.replicate 12 16)).currentAnimation = 2 ∧
        (runAnimation sampleConfig (changeAnimation samplePlayer 2)
          (List.replicate 12 16)).currentFrame
          = animStart 2
            + frameAdvances sampleConfig (changeAnimation samplePlayer 2) (List.replicate 12 16)
              % (animEnd 2 - animStart 2 + 1)) ∧
      ((runAnimation sampleConfig (changeAnimation samplePlayer 8)
          (List.replicate 30 16)).currentAnimation = samplePlayer.nextAnim ∧
        (runAnimation sampleConfig (changeAnimation samplePlayer 8)
          (List.replicate 30 16)).currentFrame = animStart samplePlayer.nextAnim) :=
  ⟨(sequencer_loops_or_plays_once sampleConfig samplePlayer 2 (by decide)).2.1 (by decide)
      (List.replicate 12 16),
    (((sequencer_loops_or_plays_once sampleConfig samplePlayer 8 (by decide)).2.2 (by decide)
      (by decide)) (List.replicate 30 16)).2 (by decide!)⟩

/-- Claim C13. With a single obstacle, where the box moved by `amount` to the
right (or to the left) overlaps the obstacle and the moved box raised by
`UP_MARGIN` does not, `moveHelp(Right or Left, amount)` ends with
`collisionBox.x` at the start `x` plus (minus) the whole amount, with
`collisionBox.y` raised by at least `1` and at most `UP_MARGIN`, with the box
clear of the obstacle and resting on it: shifted down by one unit it overlaps
the obstacle. -/
theorem stepUp_onto_ledge (cfg : Config) (s : Player) (obj : Rectangle) (dir : Direction)
    (amount : Int) (hdir : dir = Direction.Right ∨ dir = Direction.Left)
    (hmoved : isColliding
      ⟨(displaced dir amount s.collisionBox).1, s.collisionBox.y,
        s.collisionBox.w, s.collisionBox.h⟩ obj = true)
    (hraised : isColliding
      ⟨(displaced dir amount s.collisionBox).1, s.collisionBox.y - cfg.UP_MARGIN,
        s.collisionBox.w, s.collisionBox.h⟩ obj = false) :
    (moveHelp cfg [obj] s dir amount).collisionBox.x
        = (if dir = Direction.Right then s.collisionBox.x + amount
           else s.collisionBox.x - amount) ∧
      s.collisionBox.y - cfg.UP_MARGIN ≤ (moveHelp cfg [obj] s dir amount).collisionBox.y ∧
      (moveHelp cfg [obj] s dir amount).collisionBox.y ≤ s.collisionBox.y - 1 ∧
      (moveHelp cfg [obj] s dir amount).collisionBox.w = s.collisionBox.w ∧
      (moveHelp cfg [obj] s dir amount).collisionBox.h = s.collisionBox.h ∧
      isColliding (moveHelp cfg [obj] s dir amount).collisionBox obj = false ∧
      isColliding
        { (moveHelp cfg [obj] s dir amount).collisionBox with
          y := (moveHelp cfg [obj] s dir amount).collisionBox.y + 1 } obj = true := by
  have hy : (displaced dir amount s.collisionBox).2 = s.collisionBox.y := by
    rcases hdir with rfl | rfl <;> rfl
  have hx : (displaced dir amount s.collisionBox).1
      = (if dir = Direction.Right then s.collisionBox.x + amount
         else s.collisionBox.x - amount) := by
    rcases hdir with rfl | rfl <;> simp [displaced]
  obtain ⟨cy, h1, h2, h3, h4, h5⟩ :=
    resolve_stepUp cfg dir s.collisionBox.w s.collisionBox.h obj
      (displaced dir amount s.collisionBox) hdir (by rw [hy]; exact hmoved)
      (by rw [hy]; exact hraised)
  have hpos : moveHelpPos cfg [obj] dir amount s.collisionBox
      = ((displaced dir amount s.collisionBox).1, cy - 1) := by
    unfold moveHelpPos
    rw [List.foldl_cons, List.foldl_nil, h1]
  rw [hy] at h2 h3
  simp only [moveHelp, hpos]
  refine ⟨hx, by omega, by omega, trivial, trivial, h5, ?_⟩
  have : cy - 1 + 1 = cy := by omega
  rw [this]
  exact h4

theorem stepUp_onto_ledge_witness :
    (moveHelp sampleConfig [⟨50, 63, 10, 1⟩] samplePlayer Direction.Right 30).collisionBox.x
        = (if Direction.Right = Direction.Right then samplePlayer.collisionBox.x + 30
           else samplePlayer.collisionBox.x - 30) ∧
      samplePlayer.collisionBox.y - sampleConfig.UP_MARGIN
        ≤ (moveHelp sampleConfig [⟨50, 63, 10, 1⟩] samplePlayer Direction.Right 30).collisionBox.y ∧
      (moveHelp sampleConfig [⟨50, 63, 10, 1⟩] samplePlayer Direction.Right 30).collisionBox.y
        ≤ samplePlayer.collisionBox.y - 1 :=
  ⟨(stepUp_onto_ledge sampleConfig samplePlayer ⟨50, 63, 10, 1⟩ Direction.Right 30
      (Or.inl rfl) (by decide) (by decide)).1,
    (stepUp_onto_ledge sampleConfig samplePlayer ⟨50, 63, 10, 1⟩ Direction.Right 30
      (Or.inl rfl) (by decide) (by decide)).2.1,
    (stepUp_onto_ledge sampleConfig samplePlayer ⟨50, 63, 10, 1⟩ Direction.Right 30
      (Or.inl rfl) (by decide) (by decide)).2.2.1⟩

/-- Claim C14. The loops of `moveHelp` end, for every box, direction, amount
and map, an obstacle that encloses the moved box included (`UP_MARGIN >= 0`
by its type, coordinates unbounded): on every large enough step budget the
loops return a position, and `moveHelp`, a total function, places the box and
the visual position there. -/
theorem moveHelp_terminates (cfg : Config) (map : List Rectangle) (s : Player)
    (dir : Direction) (amount : Int) :
    ∃ (fuel : Nat) (r : Int × Int),
      (∀ fuel' : Nat, fuel ≤ fuel' →
        moveHelpFuel cfg fuel' map dir amount s.collisionBox = some r) ∧
      (moveHelp cfg map s dir amount).collisionBox = { s.collisionBox with x := r.1, y := r.2 } ∧
      (moveHelp cfg map s dir amount).position = ⟨r.1 - cfg.HIT_BOX_MARGIN_X, r.2⟩ := by
  obtain ⟨fuel, hfuel⟩ := moveHelpFuel_total cfg map dir amount s.collisionBox
  exact ⟨fuel, moveHelpPos cfg map dir amount s.collisionBox, hfuel, rfl, rfl⟩

/-- Claim C15, the claim as stated fails.  A grounded player on the flat floor,
not rolling, not attacking, with `recoilTimer == 0` and free room around it,
has a move-left intent pending from a `move(1)`: after `move(0)` and
`update(100)` it has walked `30` to the right and `30` back to the left, so
`collisionBox.x` is where it was.  And the distance is the single-precision
value: at `delta = 1000.f / 60.f` the `float` expression
`SPEED * delta / 1000` truncates to `5` where the exact quotient truncates to
`4`. -/
theorem pending_move_left_cancels :
    (move groundedPlayer 1).onGround = true ∧ (move groundedPlayer 1).rolling = false ∧
      (move groundedPlayer 1).attacking = false ∧ (move groundedPlayer 1).recoilTimer = 0 ∧
      (move groundedPlayer 1).moveLeft = true ∧
      walkAmount sampleConfig (toFloat 100) = 30 ∧
      clearOf floorMap
        { (move groundedPlayer 1).collisionBox with
          x := (move groundedPlayer 1).collisionBox.x + 30 } ∧
      (update sampleConfig floorMap (move (move groundedPlayer 1) 0) 100).collisionBox.x
        = (move groundedPlayer 1).collisionBox.x ∧
      (update sampleConfig floorMap (move (move groundedPlayer 1) 0) 100).collisionBox.x
        ≠ (move groundedPlayer 1).collisionBox.x + 30 ∧
      walkAmount sampleConfig (toFloat (1000 / 60)) = 5 ∧
      truncInt (sampleConfig.SPEED * toFloat (1000 / 60) / 1000) = 4 := by
  decide!

/-- Claim C15, as amended.  After `update(delta)` both `moveRight` and `moveLeft`
are false, for every `delta`; hence, for a player that is grounded, not
rolling, not attacking, with `recoilTimer == 0` and no move-left intent pending,
with free room at its destination and ground under it, `move(0)` followed by
`update(delta)` shifts `collisionBox.x` by exactly
`static_cast<int>(SPEED * delta / 1000)`, the product and the quotient being
evaluated in single precision, and selects `MOVE_RIGHT`, and a second
`update(delta)` with no `move` in between leaves `collisionBox.x` where it is
and selects `IDLE_RIGHT` (`MOVE_RIGHT` and `IDLE_RIGHT` being looping
animations of the table). -/
theorem move_intent_lasts_one_tick (cfg : Config) (map : List Rectangle) (s : Player)
    (delta : Rat)
    (hg : s.onGround = true) (hr : s.rolling = false) (ha : s.attacking = false)
    (hrec : s.recoilTimer = 0) (hl : s.moveLeft = false)
    (hclear : clearOf map
      { s.collisionBox with x := s.collisionBox.x + walkAmount cfg (toFloat delta) })
    (hfloor : (map.any fun obj =>
      isColliding
        { s.collisionBox with
          x := s.collisionBox.x + walkAmount cfg (toFloat delta)
          y := s.collisionBox.y + 1 } obj) = true)
    (hmove : statePlayOnce cfg.MOVE_RIGHT = false)
    (hidle : statePlayOnce cfg.IDLE_RIGHT = false) :
    (∀ (t : Player) (d : Rat),
        (update cfg map t d).moveRight = false ∧ (update cfg map t d).moveLeft = false) ∧
      (update cfg map (move s 0) delta).collisionBox.x
        = s.collisionBox.x + walkAmount cfg (toFloat delta) ∧
      (update cfg map (move s 0) delta).currentAnimation = cfg.MOVE_RIGHT ∧
      (update cfg map (update cfg map (move s 0) delta) delta).collisionBox.x
        = (update cfg map (move s 0) delta).collisionBox.x ∧
      (update cfg map (update cfg map (move s 0) delta) delta).currentAnimation
        = cfg.IDLE_RIGHT := by
  have hs1 : (move s 0).motion
      = walking s.collisionBox true true s.recoilFaceRight s.position := by
    unfold move
    rw [if_neg (by simp [hr, ha]), if_pos rfl]
    simp [Player.motion, walking, hg, hr, ha, hrec, hl]
  obtain ⟨⟨p1, m1⟩, a1⟩ := update_walking cfg map (move s 0) delta s.collisionBox true true
    s.recoilFaceRight s.position (walkAmount cfg (toFloat delta)) hs1 (by simp) hclear
    hfloor (by simpa [groundAnimation] using hmove)
  obtain ⟨⟨p2, m2⟩, a2⟩ := update_walking cfg map (update cfg map (move s 0) delta) delta _
    false true s.recoilFaceRight p1 0 m1 (by simp) (by simpa using hclear)
    (by simpa using hfloor) (by simpa [groundAnimation] using hidle)
  have b1 := congrArg Motion.collisionBox m1
  have b2 := congrArg Motion.collisionBox m2
  simp only [Player.motion, walking] at b1 b2
  refine ⟨fun t d => update_resets_intents cfg map t d, ?_, ?_, ?_, ?_⟩
  · rw [b1]
  · simpa [groundAnimation] using a1
  · rw [b2, b1]
    simp
  · simpa [groundAnimation] using a2

theorem move_intent_lasts_one_tick_witness :
    (update sampleConfig floorMap (move groundedPlayer 0) 100).collisionBox.x
        = groundedPlayer.collisionBox.x + walkAmount sampleConfig (toFloat 100) ∧
      (update sampleConfig floorMap (move groundedPlayer 0) 100).currentAnimation
        = sampleConfig.MOVE_RIGHT ∧
      (update sampleConfig floorMap (update sampleConfig floorMap (move groundedPlayer 0) 100)
          100).collisionBox.x
        = (update sampleConfig floorMap (move groundedPlayer 0) 100).collisionBox.x ∧
      (update sampleConfig floorMap (update sampleConfig floorMap (move groundedPlayer 0) 100)
          100).currentAnimation
        = sampleConfig.IDLE_RIGHT :=
  (move_intent_lasts_one_tick sampleConfig floorMap groundedPlayer 100 (by decide!)
    (by decide!) (by decide!) (by decide!) (by decide!) (by decide!) (by decide!)
    (by decide) (by decide)).2

/-- Claim C16, evaluated where it fails.  With `rolling` set and
`rollCoolDown == 16`, `update(16)` leaves `rollCoolDown == 0` and `rolling`
still set (the test is `rollCoolDown < delta`); the same happens on the fourth
`update(100)` after a `roll()` with `ROLL_TIME == 400`.  The attack cooldown,
tested with `<=`, clears `attacking` in the update in which it reaches `0`.
(Only integer fields are evaluated; `16` and `100` are exact as floats.) -/
theorem rolling_outlives_cooldown :
    rollingPlayer.rolling = true ∧ rollingPlayer.rollCoolDown = 16 ∧
      (update sampleConfig [] rollingPlayer 16).rollCoolDown = 0 ∧
      (update sampleConfig [] rollingPlayer 16).rolling = true ∧
      (run sampleConfig floorMap groundedPlayer
        [Call.roll, Call.update 100, Call.update 100, Call.update 100]).rollCoolDown = 100 ∧
      (run sampleConfig floorMap groundedPlayer
        [Call.roll, Call.update 100, Call.update 100, Call.update 100,
          Call.update 100]).rollCoolDown = 0 ∧
      (run sampleConfig floorMap groundedPlayer
        [Call.roll, Call.update 100, Call.update 100, Call.update 100,
          Call.update 100]).rolling = true ∧
      (run sampleConfig floorMap groundedPlayer
        [Call.attack, Call.update 100, Call.update 100, Call.update 100]).attackCoolDown = 0 ∧
      (run sampleConfig floorMap groundedPlayer
        [Call.attack, Call.update 100, Call.update 100, Call.update 100]).attacking = false := by
  decide!

/-- Claim C17. With `ATTACK_TIME > 0`, in every state reached from the
constructor's state by `move`, `jump`, `roll`, `attack`, `takeDamage` and
`update` calls, `attacking` is set if and only if `attackCoolDown > 0`; so the
update in which `attackCoolDown` reaches `0` also clears `attacking`.  (It
holds for every `delta`, so in particular for `delta >= 0`.) -/
theorem attacking_iff_cooldown_positive (cfg : Config) (map : List Rectangle) (u : Unset)
    (x y health : Int) (calls : List Call) (hA : 0 < cfg.ATTACK_TIME) :
    (run cfg map (Player.init cfg u x y health) calls).attacking = true ↔
      0 < (run cfg map (Player.init cfg u x y health) calls).attackCoolDown :=
  run_attacking_iff cfg map hA calls _ (by simp [Player.init])

theorem attacking_iff_cooldown_positive_witness :
    (run sampleConfig floorMap (Player.init sampleConfig sampleUnset 0 0 3)
        [Call.update 100, Call.attack, Call.update 100, Call.update 100]).attacking = true ↔
      0 < (run sampleConfig floorMap (Player.init sampleConfig sampleUnset 0 0 3)
        [Call.update 100, Call.attack, Call.update 100, Call.update 100]).attackCoolDown :=
  attacking_iff_cooldown_positive sampleConfig floorMap sampleUnset 0 0 3
    [Call.update 100, Call.attack, Call.update 100, Call.update 100] (by decide)

/-- Claim C18, the claim as stated fails.  With `frameCounter == 0`,
`updateAnimation(16)` leaves `frameCounter == 1`, not `16`, and the result is
the same for `delta == 16` and `delta == 1000`. -/
theorem animation_tick_ignores_delta :
    samplePlayer.frameCounter = 0 ∧
      (updateAnimation sampleConfig samplePlayer 16).frameCounter = 1 ∧
      (updateAnimation sampleConfig samplePlayer 16).frameCounter ≠ samplePlayer.frameCounter + 16 ∧
      updateAnimation sampleConfig samplePlayer 16
        = updateAnimation sampleConfig samplePlayer 1000 := by
  decide!

/-- Claim C18, as amended.  The animation tick counts calls, not elapsed time:
for every sequencer state and every `delta`, the result of
`updateAnimation(delta)` does not depend on `delta`; a call made with
`frameCounter <= ANIMATION_INTERVAL` does not advance the frame and increases
`frameCounter` by `1`; a call made with `frameCounter > ANIMATION_INTERVAL`
resets `frameCounter` to `0` and advances the frame (to `currentFrame + 1` while
that is within the range of the animation). -/
theorem animation_tick_counts_calls (cfg : Config) (s : Player) (delta : Rat) :
    (∀ delta' : Rat, updateAnimation cfg s delta' = updateAnimation cfg s delta) ∧
      (s.frameCounter ≤ cfg.ANIMATION_INTERVAL →
        (updateAnimation cfg s delta).frameCounter = s.frameCounter + 1 ∧
        (updateAnimation cfg s delta).currentFrame = s.currentFrame ∧
        (updateAnimation cfg s delta).currentAnimation = s.currentAnimation) ∧
      (cfg.ANIMATION_INTERVAL < s.frameCounter →
        (updateAnimation cfg s delta).frameCounter = 0 ∧
        (s.currentFrame + 1 ≤ animEnd s.currentAnimation →
          (updateAnimation cfg s delta).currentFrame = s.currentFrame + 1 ∧
          (updateAnimation cfg s delta).currentAnimation = s.currentAnimation)) := by
  refine ⟨fun _ => rfl, ?_, ?_⟩
  · intro h
    unfold updateAnimation
    rw [if_neg (by omega)]
    exact ⟨rfl, rfl, rfl⟩
  · intro h
    unfold updateAnimation
    rw [if_pos (by omega)]
    simp only []
    constructor
    · repeat' split
      all_goals first
        | rfl
        | exact changeAnimation_frameCounter _ _
    · intro hle
      rw [if_neg (by omega)]
      exact ⟨rfl, rfl⟩

theorem animation_tick_counts_calls_witness :
    (updateAnimation sampleConfig samplePlayer 16).frameCounter = samplePlayer.frameCounter + 1 ∧
      (updateAnimation sampleConfig { samplePlayer with frameCounter := 4, currentAnimation := 2, currentFrame := 16 } 16).frameCounter = 0 ∧
      (updateAnimation sampleConfig { samplePlayer with frameCounter := 4, currentAnimation := 2, currentFrame := 16 } 16).currentFrame = 17 :=
  ⟨((animation_tick_counts_calls sampleConfig samplePlayer 16).2.1 (by decide)).1,
    ((animation_tick_counts_calls sampleConfig
      { samplePlayer with frameCounter := 4, currentAnimation := 2, currentFrame := 16 } 16).2.2
      (by decide)).1,
    (((animation_tick_counts_calls sampleConfig
      { samplePlayer with frameCounter := 4, currentAnimation := 2, currentFrame := 16 } 16).2.2
      (by decide)).2 (by decide)).1⟩

/-- Claim C19, evaluated where it fails.  Right after construction at `(0, 0)`
the collision box is at `x = 0`, the visual position too, while
`HIT_BOX_MARGIN_X` is `10`; the first `update` moves the visual position to
`x = -10` and the offset holds from then on. -/
theorem constructor_box_without_margin :
    samplePlayer.collisionBox.x = 0 ∧ samplePlayer.position.x = 0 ∧
      sampleConfig.HIT_BOX_MARGIN_X = 10 ∧
      samplePlayer.collisionBox.x ≠ samplePlayer.position.x + sampleConfig.HIT_BOX_MARGIN_X ∧
      (update sampleConfig floorMap samplePlayer 100).collisionBox.x = 0 ∧
      (update sampleConfig floorMap samplePlayer 100).position.x = -10 := by
  decide!

end FusionBlitz

